import Mathlib

/-
  Verification development for the TrayTrack pilot service (src/main.py).

  Shallow embedding: the priority/color engine, the restock-task lifecycle
  and the quantity bookkeeping of the source are translated into executable
  Lean definitions.  The relational store is modelled as explicit lists of
  rows; each HTTP handler becomes a pure function from a database state and
  a validated request payload to either an error (the transaction rolls
  back, so an error leaves the state untouched) or a new database state.
  Fields that no verified property mentions (GPS coordinates, device
  metadata, notes, photos, the append-only event log, case/doctor records)
  are omitted from the row types; every field that any lifecycle rule reads
  or writes is kept.  Python floats used by the escalation heuristic are
  modelled as rationals, machine timestamps as an abstract Nat clock passed
  into each operation.
-/

namespace TrayTrack

/-- Status of a tray or standalone item (source: `class TrayStatus`). -/
inductive TrayStatus where
  | ready
  | in_location
  | needs_restock
deriving DecidableEq, Repr

/-- Status of a restock task (source: `class RestockStatus`; the source
value `open` is a Lean keyword, rendered `open_`). -/
inductive RestockStatus where
  | open_
  | closed
deriving DecidableEq, Repr

def COLOR_GREEN : String := "green"
def COLOR_BLUE : String := "blue"
def COLOR_YELLOW : String := "yellow"
def COLOR_ORANGE : String := "orange"
def COLOR_RED : String := "red"

/-- Source: `map_color(priority_numeric, partial, ready)`.  The numeric
branch falls through to the partial/green defaults when the numeric value
is not 1, 2 or 3, exactly as the source's early returns do. -/
def map_color (priority_numeric : Option Int) (partialFlag : Bool) (ready : Bool) : String :=
  if ready then COLOR_GREEN
  else
    match priority_numeric with
    | some n =>
      if n = 1 then COLOR_RED
      else if n = 2 then COLOR_ORANGE
      else if n = 3 then COLOR_YELLOW
      else if partialFlag then COLOR_BLUE
      else COLOR_GREEN
    | none =>
      if partialFlag then COLOR_BLUE
      else COLOR_GREEN

/-- Source: `apply_priority_non_downgrade(existing_numeric, existing_partial,
new_numeric, new_partial)`.  `new_partialFlag` is the source's
`Optional[bool]`; Python truthiness of the optional is `= some true`. -/
def apply_priority_non_downgrade (existing_numeric : Option Int) (existingPartialFlag : Bool)
    (new_numeric : Option Int) (new_partialFlag : Option Bool) : Option Int × Bool :=
  let out_numeric :=
    match new_numeric with
    | some n =>
      match existing_numeric with
      | none => some n
      | some e => if n > e then some n else existing_numeric
    | none => existing_numeric
  let out_partialFlag :=
    if new_partialFlag = some true then
      if out_numeric = none then true else existingPartialFlag
    else existingPartialFlag
  (out_numeric, out_partialFlag)

/-- Source: `auto_escalation_suggestion`.  Floats are modelled as `Rat`. -/
def auto_escalation_suggestion (has_assigned_case_within_72h : Bool)
    (case_count_per_week : Rat) (tray_avg_weekly : Rat)
    (any_critical_missing : Bool) : Option Int :=
  let points : Nat :=
    (if case_count_per_week > tray_avg_weekly then 1 else 0)
    + (if has_assigned_case_within_72h then 1 else 0)
    + (if any_critical_missing then 1 else 0)
  if points ≥ 3 then some 3
  else if points = 2 then some 2
  else if points = 1 then some 1
  else none

/-- Source: `class Tray` (location/GPS columns omitted: no verified claim
reads them). -/
structure Tray where
  id : Nat
  name : String
  status : TrayStatus
  priority_numeric : Option Int
  priority_partialFlag : Bool
  color : String
deriving DecidableEq, Repr

/-- Source: `class TrayItem` (`name`/`is_critical` omitted). -/
structure TrayItem where
  id : Nat
  tray_id : Nat
  sku : String
  qty_expected : Option Int
  qty_on_hand : Option Int
deriving DecidableEq, Repr

/-- Source: `class RestockTask`. -/
structure RestockTask where
  id : Nat
  tray_id : Nat
  status : RestockStatus
  created_at : Nat
  updated_at : Nat
deriving DecidableEq, Repr

/-- Source: `class RestockTaskItem`. -/
structure RestockTaskItem where
  id : Nat
  task_id : Nat
  item_id : Nat
  qty_missing : Option Int
  reason : Option String
  restocked : Bool
  restocked_at : Option Nat
  restocked_by : Option String
deriving DecidableEq, Repr

/-- The relational store: one list per table that the verified operations
touch, plus the autoincrement counters SQLite keeps per table. -/
structure DB where
  trays : List Tray
  tray_items : List TrayItem
  tasks : List RestockTask
  task_items : List RestockTaskItem
  next_tray_id : Nat
  next_item_id : Nat
  next_task_id : Nat
  next_row_id : Nat
deriving DecidableEq, Repr

def DB.init : DB :=
  { trays := [], tray_items := [], tasks := [], task_items := []
    next_tray_id := 1, next_item_id := 1, next_task_id := 1, next_row_id := 1 }

/-- `session.get(Tray, id)`. -/
def findTray (db : DB) (tid : Nat) : Option Tray :=
  db.trays.find? (fun t => decide (t.id = tid))

/-- `session.get(TrayItem, id)`. -/
def findTrayItem (db : DB) (iid : Nat) : Option TrayItem :=
  db.tray_items.find? (fun i => decide (i.id = iid))

/-- `session.get(RestockTask, id)` (used only in specifications). -/
def findTask (db : DB) (tid : Nat) : Option RestockTask :=
  db.tasks.find? (fun t => decide (t.id = tid))

/-- First task-item row with a given row id (used only in specifications). -/
def findRow (db : DB) (rid : Nat) : Option RestockTaskItem :=
  db.task_items.find? (fun r => decide (r.id = rid))

/-- `select(RestockTask).where(tray_id == tid, status == open).first()`. -/
def openTaskFor (db : DB) (tid : Nat) : Option RestockTask :=
  db.tasks.find? (fun t => decide (t.tray_id = tid ∧ t.status = RestockStatus.open_))

/-- `select(RestockTaskItem).where(task_id == taskId, restocked == False).all()`. -/
def unresolvedRows (db : DB) (taskId : Nat) : List RestockTaskItem :=
  db.task_items.filter (fun r => decide (r.task_id = taskId ∧ r.restocked = false))

/-- Errors a lifecycle handler can surface.  An error aborts the whole
transaction, so the store is unchanged (the handler returns no new state). -/
inductive ApiError where
  | trayNotFound
  | emptyItems
  | itemNotInTray (item_id : Nat)
  | duplicateName
  | duplicateSku
deriving DecidableEq, Repr

/-- Source: `ensure_open_restock_task`: get-or-create the open task of a
tray.  Returns the task together with the (possibly extended) store. -/
def ensure_open_restock_task (db : DB) (tray_id : Nat) (now : Nat) : RestockTask × DB :=
  match openTaskFor db tray_id with
  | some task => (task, db)
  | none =>
    let task : RestockTask :=
      { id := db.next_task_id, tray_id := tray_id, status := RestockStatus.open_
        created_at := now, updated_at := now }
    (task, { db with tasks := db.tasks ++ [task], next_task_id := db.next_task_id + 1 })

/-- Source: `close_restock_task_if_empty`: close the tray's open task when
no unresolved task-item rows remain under it. -/
def close_restock_task_if_empty (db : DB) (tray_id : Nat) (now : Nat) : DB :=
  match openTaskFor db tray_id with
  | none => db
  | some task =>
    if unresolvedRows db task.id = [] then
      { db with tasks := db.tasks.map (fun t =>
          if t.id = task.id then { t with status := RestockStatus.closed, updated_at := now } else t) }
    else db

/-- Source: `class InventoryCheckItem` (request payload). -/
structure InventoryCheckItem where
  item_id : Nat
  reason : Option String
  qty_missing : Option Int
  qty_used : Option Int
deriving DecidableEq, Repr

/-- Source: `class InventoryCheckRequest`.  The three heuristic inputs are
`Optional` with defaults in the source and the handler reads them through
`x or default`; they are modelled after that coercion. -/
structure InventoryCheckRequest where
  tray_id : Nat
  user_id : String
  items : List InventoryCheckItem
  has_assigned_case_within_72h : Bool
  case_count_per_week : Rat
  tray_avg_weekly : Rat
  any_critical_missing : Bool
  user_priority_numeric : Option Int
  user_priority_partialFlag : Option Bool
deriving DecidableEq, Repr

/-- Source: `class RestockFullRequest` (GPS/location/notes omitted). -/
structure RestockFullRequest where
  tray_id : Nat
  user_id : String
deriving DecidableEq, Repr

/-- Source: `Literal["partial", 1, 2, 3]` of `RestockPartialRequest`. -/
inductive NewPriority where
  | partialKw
  | num (n : Int)
deriving DecidableEq, Repr

/-- Source: `class RestockPartialItem`. -/
structure RestockPartialItem where
  item_id : Nat
  qty_restocked : Option Int
deriving DecidableEq, Repr

/-- Source: `class RestockPartialRequest` (GPS/location/notes omitted). -/
structure RestockPartialRequest where
  tray_id : Nat
  user_id : String
  items : List RestockPartialItem
  new_priority : NewPriority
deriving DecidableEq, Repr

/-- Source: `class CreateTrayItemIn`. -/
structure CreateTrayItemIn where
  tray_id : Nat
  sku : String
  qty_expected : Option Int
  qty_on_hand : Option Int
deriving DecidableEq, Repr

/-- Source: `create_tray` (`POST /seed/trays`): unique name check, then a
fresh tray with default status/priority and a recomputed color. -/
def create_tray (db : DB) (name : String) : Except ApiError DB :=
  if db.trays.any (fun t => decide (t.name = name)) then
    Except.error ApiError.duplicateName
  else
    let tray0 : Tray :=
      { id := db.next_tray_id, name := name, status := TrayStatus.ready
        priority_numeric := none, priority_partialFlag := false, color := COLOR_GREEN }
    let tray : Tray :=
      { tray0 with color := map_color tray0.priority_numeric tray0.priority_partialFlag (decide (tray0.status = TrayStatus.ready)) }
    Except.ok { db with trays := db.trays ++ [tray], next_tray_id := db.next_tray_id + 1 }

/-- Source: `create_tray_item` (`POST /seed/tray-items`). -/
def create_tray_item (db : DB) (p : CreateTrayItemIn) : Except ApiError DB :=
  match findTray db p.tray_id with
  | none => Except.error ApiError.trayNotFound
  | some _ =>
    if db.tray_items.any (fun i => decide (i.tray_id = p.tray_id ∧ i.sku = p.sku)) then
      Except.error ApiError.duplicateSku
    else
      Except.ok { db with
        tray_items := db.tray_items ++
          [{ id := db.next_item_id, tray_id := p.tray_id, sku := p.sku
             qty_expected := p.qty_expected, qty_on_hand := p.qty_on_hand }]
        next_item_id := db.next_item_id + 1 }

/-- Source: `log_dropoff` (`POST /scan-events/dropoff`): status becomes
`in_location`, priority untouched, color recomputed. -/
def log_dropoff (db : DB) (tray_id : Nat) : Except ApiError DB :=
  match findTray db tray_id with
  | none => Except.error ApiError.trayNotFound
  | some tray =>
    let tray1 := { tray with status := TrayStatus.in_location }
    let tray2 := { tray1 with color := map_color tray1.priority_numeric tray1.priority_partialFlag (decide (tray1.status = TrayStatus.ready)) }
    Except.ok { db with trays := db.trays.map (fun t => if t.id = tray.id then tray2 else t) }

/-- One iteration of the item loop of `inventory_check`: quantity
decrement floored at zero, then idempotent upsert of the unresolved
task-item row. -/
def check_one_item (db : DB) (trayId taskId : Nat) (it : InventoryCheckItem) :
    Except ApiError DB :=
  match findTrayItem db it.item_id with
  | none => Except.error (ApiError.itemNotInTray it.item_id)
  | some item =>
    if item.tray_id ≠ trayId then Except.error (ApiError.itemNotInTray it.item_id)
    else
      let db_q : DB :=
        match it.qty_used with
        | some u =>
          if u > 0 then
            { db with tray_items := db.tray_items.map (fun j =>
                if j.id = item.id then
                  { j with qty_on_hand := some (max 0 (j.qty_on_hand.getD 0 - u)) }
                else j) }
          else db
        | none => db
      match db_q.task_items.find? (fun r =>
          decide (r.task_id = taskId ∧ r.item_id = it.item_id ∧ r.restocked = false)) with
      | none =>
        Except.ok { db_q with
          task_items := db_q.task_items ++
            [{ id := db_q.next_row_id, task_id := taskId, item_id := it.item_id
               qty_missing := it.qty_missing, reason := it.reason, restocked := false
               restocked_at := none, restocked_by := none }]
          next_row_id := db_q.next_row_id + 1 }
      | some existing =>
        Except.ok { db_q with task_items := db_q.task_items.map (fun r =>
            if r.id = existing.id then
              { r with
                reason := (match it.reason with | some s => some s | none => r.reason),
                qty_missing := (match it.qty_missing with | some q => some q | none => r.qty_missing) }
            else r) }

/-- The `for it in payload.items` loop of `inventory_check`; any failure
aborts (the surrounding transaction never commits). -/
def processCheckItems (db : DB) (trayId taskId : Nat) :
    List InventoryCheckItem → Except ApiError DB
  | [] => Except.ok db
  | it :: rest =>
    match check_one_item db trayId taskId it with
    | Except.error e => Except.error e
    | Except.ok db' => processCheckItems db' trayId taskId rest

/-- Source: `inventory_check` (`POST /inventory-checks`). -/
def inventory_check (db : DB) (p : InventoryCheckRequest) (now : Nat) : Except ApiError DB :=
  match findTray db p.tray_id with
  | none => Except.error ApiError.trayNotFound
  | some tray =>
    if p.items = [] then Except.error ApiError.emptyItems
    else
      match ensure_open_restock_task db tray.id now with
      | (task, db1) =>
        match processCheckItems db1 tray.id task.id p.items with
        | Except.error e => Except.error e
        | Except.ok db2 =>
          let auto_suggest := auto_escalation_suggestion p.has_assigned_case_within_72h
            p.case_count_per_week p.tray_avg_weekly p.any_critical_missing
          let new_num := match p.user_priority_numeric with
            | some v => some v
            | none => auto_suggest
          let newPartialFlag : Bool := match p.user_priority_partialFlag with
            | some b => b
            | none => false
          let merged := apply_priority_non_downgrade tray.priority_numeric
            tray.priority_partialFlag new_num (some newPartialFlag)
          let tray1 := { tray with status := TrayStatus.needs_restock }
          let tray2 := { tray1 with priority_numeric := merged.1, priority_partialFlag := merged.2 }
          let tray3 := { tray2 with color := map_color tray2.priority_numeric tray2.priority_partialFlag (decide (tray2.status = TrayStatus.ready)) }
          Except.ok { db2 with
            trays := db2.trays.map (fun t => if t.id = tray.id then tray3 else t)
            tasks := db2.tasks.map (fun t =>
              if t.id = task.id then { t with updated_at := now } else t) }

/-- Source: `restock_full` (`POST /restocks/full`). -/
def restock_full (db : DB) (p : RestockFullRequest) (now : Nat) : Except ApiError DB :=
  match findTray db p.tray_id with
  | none => Except.error ApiError.trayNotFound
  | some tray =>
    let db1 : DB := { db with tray_items := db.tray_items.map (fun i =>
        if i.tray_id = tray.id then
          (match i.qty_expected with
           | some e => { i with qty_on_hand := some e }
           | none => i)
        else i) }
    let db2 : DB :=
      match openTaskFor db1 tray.id with
      | some task =>
        let db1a : DB := { db1 with task_items := db1.task_items.map (fun r : RestockTaskItem =>
            if r.task_id = task.id ∧ r.restocked = false then
              { r with restocked := true, restocked_at := some now, restocked_by := some p.user_id }
            else r) }
        { db1a with tasks := db1a.tasks.map (fun t : RestockTask =>
            if t.id = task.id then { t with status := RestockStatus.closed, updated_at := now }
            else t) }
      | none => db1
    let tray1 := { tray with status := TrayStatus.ready, priority_numeric := none, priority_partialFlag := false }
    let tray2 := { tray1 with color := map_color tray1.priority_numeric tray1.priority_partialFlag true }
    Except.ok { db2 with trays := db2.trays.map (fun t => if t.id = tray.id then tray2 else t) }

/-- `by_id = \x7bp.item_id: p for p in payload.items\x7d`: a Python dict
comprehension keeps the last entry for a duplicated key. -/
def lastPayloadFor (items : List RestockPartialItem) (iid : Nat) : Option RestockPartialItem :=
  items.reverse.find? (fun ip => decide (ip.item_id = iid))

/-- The quantity-update loop of `restock_partial`: unknown or wrong-tray
item ids are silently skipped; a positive restocked quantity is added to
the on-hand count, capped at the expected quantity when one is defined. -/
def apply_restock_qty (db : DB) (trayId : Nat) : List RestockPartialItem → DB
  | [] => db
  | ip :: rest =>
    let db' : DB :=
      match findTrayItem db ip.item_id with
      | some item =>
        if item.tray_id = trayId then
          match ip.qty_restocked with
          | some r =>
            if r > 0 then
              { db with tray_items := db.tray_items.map (fun j =>
                  if j.id = item.id then
                    { j with qty_on_hand :=
                        match j.qty_expected with
                        | some e => some (min (j.qty_on_hand.getD 0 + r) e)
                        | none => some (j.qty_on_hand.getD 0 + r) }
                  else j) }
            else db
          | none => db
        else db
      | none => db
    apply_restock_qty db' trayId rest

/-- The resolution loop of `restock_partial`: every unresolved row of the
task whose item id appears in the payload is marked resolved (resolver and
timestamp recorded) and its `qty_missing` is decremented by the reported
quantity, floored at zero. -/
def resolve_rows (db : DB) (taskId : Nat) (items : List RestockPartialItem)
    (user_id : String) (now : Nat) : DB :=
  { db with task_items := db.task_items.map (fun r =>
      if r.task_id = taskId ∧ r.restocked = false then
        match lastPayloadFor items r.item_id with
        | some sel =>
          let r1 := { r with restocked := true, restocked_at := some now, restocked_by := some user_id }
          match sel.qty_restocked with
          | some q => { r1 with qty_missing := some (max 0 (r.qty_missing.getD 0 - q)) }
          | none => r1
        | none => r
      else r) }

/-- The tail of `restock_partial`: re-query the unresolved rows, set the
tray status from them, write the caller-supplied priority through, refresh
the color, and close the task if it is now empty. -/
def finish_partial (db3 : DB) (tray : Tray) (taskId : Nat) (np : NewPriority) (now : Nat) : DB :=
  let remaining_open := unresolvedRows db3 taskId
  let status1 := if remaining_open ≠ [] then TrayStatus.needs_restock else TrayStatus.ready
  let prio : Option Int × Bool :=
    match np with
    | NewPriority.partialKw =>
      ((none : Option Int), if remaining_open ≠ [] then true else false)
    | NewPriority.num n => (some n, false)
  let tray1 := { tray with status := status1, priority_numeric := prio.1, priority_partialFlag := prio.2 }
  let tray2 := { tray1 with color := map_color tray1.priority_numeric tray1.priority_partialFlag (decide (tray1.status = TrayStatus.ready)) }
  let db4 := { db3 with trays := db3.trays.map (fun t => if t.id = tray.id then tray2 else t) }
  close_restock_task_if_empty db4 tray.id now

/-- Source: `restock_partial` (`POST /restocks/partial`).  Besides the new
store the id of the get-or-created task is returned, as a ghost output
used only by specifications. -/
def restock_partial_op (db : DB) (p : RestockPartialRequest) (now : Nat) :
    Except ApiError (DB × Nat) :=
  match findTray db p.tray_id with
  | none => Except.error ApiError.trayNotFound
  | some tray =>
    if p.items = [] then Except.error ApiError.emptyItems
    else
      match ensure_open_restock_task db tray.id now with
      | (task, db1) =>
        let db2 := apply_restock_qty db1 tray.id p.items
        let db3 := resolve_rows db2 task.id p.items p.user_id now
        Except.ok ( finish_partial db3 tray task.id p.new_priority now, task.id)

/-- Pydantic validation on `CreateTrayItemIn` (`ge=0` on both quantities). -/
abbrev ValidCreateItem (p : CreateTrayItemIn) : Prop :=
  (∀ e ∈ p.qty_expected, 0 ≤ e) ∧ (∀ h ∈ p.qty_on_hand, 0 ≤ h)

/-- Pydantic validation on `InventoryCheckItem` (`ge=0`). -/
abbrev ValidInvItem (it : InventoryCheckItem) : Prop :=
  (∀ q ∈ it.qty_missing, 0 ≤ q) ∧ (∀ u ∈ it.qty_used, 0 ≤ u)

/-- Pydantic validation on `InventoryCheckRequest` (`conint(ge=1, le=3)`). -/
abbrev ValidInvReq (p : InventoryCheckRequest) : Prop :=
  (∀ it ∈ p.items, ValidInvItem it) ∧ (∀ n ∈ p.user_priority_numeric, 1 ≤ n ∧ n ≤ 3)

/-- The `Literal["partial", 1, 2, 3]` constraint on `new_priority`. -/
def ValidNewPriority : NewPriority → Prop
  | NewPriority.partialKw => True
  | NewPriority.num n => n = 1 ∨ n = 2 ∨ n = 3

instance (np : NewPriority) : Decidable (ValidNewPriority np) :=
  match np with
  | NewPriority.partialKw => isTrue trivial
  | NewPriority.num n => inferInstanceAs (Decidable (n = 1 ∨ n = 2 ∨ n = 3))

/-- Pydantic validation on `RestockPartialRequest`. -/
abbrev ValidPartialReq (p : RestockPartialRequest) : Prop :=
  (∀ ip ∈ p.items, ∀ r ∈ ip.qty_restocked, 0 ≤ r) ∧ ValidNewPriority p.new_priority

/-- Well-formedness of a store state.  All clauses hold in every reachable
state: primary-key discipline for tasks, referential sanity of task-item
rows, at most one open task per tray, every open task has an unresolved
row, and the pydantic `ge=0` discipline on quantities. -/
abbrev WF (db : DB) : Prop :=
  (∀ t ∈ db.tasks, t.id < db.next_task_id)
  ∧ (db.tasks.map RestockTask.id).Nodup
  ∧ (∀ r ∈ db.task_items, r.task_id < db.next_task_id)
  ∧ (∀ t1 ∈ db.tasks, ∀ t2 ∈ db.tasks,
       t1.status = RestockStatus.open_ → t2.status = RestockStatus.open_ →
       t1.tray_id = t2.tray_id → t1.id = t2.id)
  ∧ (∀ t ∈ db.tasks, t.status = RestockStatus.open_ → unresolvedRows db t.id ≠ [])
  ∧ (∀ i ∈ db.tray_items, (∀ h ∈ i.qty_on_hand, 0 ≤ h) ∧ (∀ e ∈ i.qty_expected, 0 ≤ e))

/-- One committed lifecycle transition: some handler, applied to a payload
that passed request validation, succeeded. -/
inductive Step (db db' : DB) : Prop where
  | createTray (name : String) (h : create_tray db name = Except.ok db')
  | createItem (p : CreateTrayItemIn) (hv : ValidCreateItem p)
      (h : create_tray_item db p = Except.ok db')
  | dropoff (tray_id : Nat) (h : log_dropoff db tray_id = Except.ok db')
  | invCheck (p : InventoryCheckRequest) (now : Nat) (hv : ValidInvReq p)
      (h : inventory_check db p now = Except.ok db')
  | rFull (p : RestockFullRequest) (now : Nat) (h : restock_full db p now = Except.ok db')
  | rPartial (p : RestockPartialRequest) (now : Nat) (taskId : Nat) (hv : ValidPartialReq p)
      (h : restock_partial_op db p now = Except.ok (db', taskId))

/-- States reachable from the empty store by committed transitions. -/
inductive Reachable : DB → Prop where
  | init : Reachable DB.init
  | step {db db' : DB} : Reachable db → Step db db' → Reachable db'

/-- Postconditions of a successful partial restock (claim C7), phrased
against the get-or-created task's id (the ghost output): if unresolved
rows remain under the task the tray is `needs_restock` and the task stays
open, otherwise the tray is `ready` and the task is closed; a "partial"
`new_priority` yields `(none, remaining?)` and a numeric one is written
through verbatim as `(n, false)`. -/
def RestockPartialPost (trayId : Nat) (np : NewPriority) (db' : DB) (taskId : Nat) : Prop :=
  ∃ tr', findTray db' trayId = some tr'
    ∧ (unresolvedRows db' taskId ≠ [] →
        tr'.status = TrayStatus.needs_restock
        ∧ ∃ t', findTask db' taskId = some t' ∧ t'.status = RestockStatus.open_)
    ∧ (unresolvedRows db' taskId = [] →
        tr'.status = TrayStatus.ready
        ∧ ∃ t', findTask db' taskId = some t' ∧ t'.status = RestockStatus.closed)
    ∧ (np = NewPriority.partialKw →
        tr'.priority_numeric = none
        ∧ (tr'.priority_partialFlag = true ↔ unresolvedRows db' taskId ≠ []))
    ∧ (∀ n, np = NewPriority.num n →
        tr'.priority_numeric = some n ∧ tr'.priority_partialFlag = false)

/-- Postconditions of a successful full restock (claim C6): the tray is
reset to ready/no-priority/green; every sub-item of the tray with an
expected quantity has its on-hand count set to it; and if the tray had an
open task, that task is closed and each of its previously unresolved rows
is marked resolved with the caller identity and timestamp. -/
def RestockFullPost (db : DB) (p : RestockFullRequest) (now : Nat) (db' : DB) : Prop :=
  (∃ tr', findTray db' p.tray_id = some tr'
      ∧ tr'.status = TrayStatus.ready ∧ tr'.priority_numeric = none
      ∧ tr'.priority_partialFlag = false ∧ tr'.color = COLOR_GREEN)
  ∧ (∀ iid i, findTrayItem db iid = some i → i.tray_id = p.tray_id →
      ∀ e, i.qty_expected = some e →
        ∃ i', findTrayItem db' iid = some i' ∧ i'.qty_on_hand = some e)
  ∧ (∀ task, openTaskFor db p.tray_id = some task →
      (∃ t', findTask db' task.id = some t' ∧ t'.status = RestockStatus.closed)
      ∧ (∀ rid r, findRow db rid = some r → r.task_id = task.id → r.restocked = false →
          findRow db' rid = some { r with restocked := true, restocked_at := some now,
                                          restocked_by := some p.user_id }))

/-- Postconditions of claim C10: a partial restock against a tray with no
open task get-or-creates a fresh task (id = the task counter), resolves no
task-item rows, leaves the tray ready with priority `(none, false)` under
`new_priority = "partial"`, and closes the fresh task within the same
call, leaving no open task. -/
def RestockPartialFreshPost (db : DB) (trayId : Nat) (db' : DB) (taskId : Nat) : Prop :=
  taskId = db.next_task_id
  ∧ db'.task_items = db.task_items
  ∧ (∃ t', findTask db' taskId = some t' ∧ t'.status = RestockStatus.closed)
  ∧ openTaskFor db' trayId = none
  ∧ (∃ tr', findTray db' trayId = some tr' ∧ tr'.status = TrayStatus.ready
      ∧ tr'.priority_numeric = none ∧ tr'.priority_partialFlag = false)

/-! ### Concrete states used by witnesses and counterexamples -/

/-- Trace: seed one tray named `A` (`POST /seed/trays`). -/
def traceT1 : DB :=
  match create_tray DB.init "A" with
  | Except.ok d => d
  | Except.error _ => DB.init

/-- Seed payload: item `S` with `qty_expected = 10`, `qty_on_hand = 10`. -/
def itemSeedS : CreateTrayItemIn :=
  { tray_id := 1, sku := "S", qty_expected := some 10, qty_on_hand := some 10 }

/-- Trace: add item `S` to tray 1. -/
def traceT2 : DB :=
  match create_tray_item traceT1 itemSeedS with
  | Except.ok d => d
  | Except.error _ => DB.init

/-- Inventory-check payload flagging item 1 with a partial-priority hint. -/
def reqPartialHint : InventoryCheckRequest :=
  { tray_id := 1, user_id := "rep001"
    items := [{ item_id := 1, reason := some "low", qty_missing := some 4, qty_used := some 4 }]
    has_assigned_case_within_72h := false, case_count_per_week := 0, tray_avg_weekly := 0
    any_critical_missing := false, user_priority_numeric := none
    user_priority_partialFlag := some true }

/-- Trace: first inventory check; tray priority becomes `(none, true)`. -/
def traceT3 : DB :=
  match inventory_check traceT2 reqPartialHint 1 with
  | Except.ok d => d
  | Except.error _ => DB.init

/-- Inventory-check payload with a numeric priority hint of 2. -/
def reqNumericHint : InventoryCheckRequest :=
  { reqPartialHint with user_priority_partialFlag := none, user_priority_numeric := some 2
                        items := [{ item_id := 1, reason := none, qty_missing := none, qty_used := none }] }

/-- Trace: second inventory check; the merge adopts numeric 2 but keeps the
stale partial flag, so the tray ends at `(some 2, true)`. -/
def traceT4 : DB :=
  match inventory_check traceT3 reqNumericHint 2 with
  | Except.ok d => d
  | Except.error _ => DB.init


/-- The tray row of `traceT3` (flagged, partial priority, blue). -/
def trayT3rec : Tray :=
  { id := 1, name := "A", status := TrayStatus.needs_restock, priority_numeric := none
    priority_partialFlag := true, color := COLOR_BLUE }

/-- Full-restock request used by witnesses. -/
def reqFull : RestockFullRequest := { tray_id := 1, user_id := "rep002" }

/-- Trace: full restock of `traceT3` at time 7. -/
def traceFullDB : DB :=
  match restock_full traceT3 reqFull 7 with
  | Except.ok d => d
  | Except.error _ => DB.init

/-- Partial-restock request resolving item 1 with quantity 4. -/
def reqPartialResolve : RestockPartialRequest :=
  { tray_id := 1, user_id := "rep003", items := [{ item_id := 1, qty_restocked := some 4 }]
    new_priority := NewPriority.partialKw }

/-- Trace: partial restock of `traceT3` at time 9 (resolves the only
unresolved row, so the task closes). -/
def tracePartialDB : DB :=
  match restock_partial_op traceT3 reqPartialResolve 9 with
  | Except.ok (d, _) => d
  | _ => DB.init

/-- The tray row of `traceT2` (seeded, ready, green). -/
def trayT2rec : Tray :=
  { id := 1, name := "A", status := TrayStatus.ready, priority_numeric := none
    priority_partialFlag := false, color := COLOR_GREEN }

/-- Partial-restock request against a tray with no open task. -/
def reqFresh : RestockPartialRequest :=
  { tray_id := 1, user_id := "rep004", items := [{ item_id := 1, qty_restocked := some 2 }]
    new_priority := NewPriority.partialKw }

/-- Partial-restock payload referencing a sub-item id (99) that does not
exist anywhere in the store. -/
def reqGhost : RestockPartialRequest :=
  { tray_id := 1, user_id := "rep005", items := [{ item_id := 99, qty_restocked := some 2 }]
    new_priority := NewPriority.num 2 }


/-- Trace: `restock_partial` on `traceT1` with the ghost item id commits
anyway. -/
def traceGhostDB : DB :=
  match restock_partial_op traceT1 reqGhost 4 with
  | Except.ok (d, _) => d
  | _ => DB.init

/-- Non-negativity of the quantity columns (clause 6 of `WF`). -/
abbrev NNItems (db : DB) : Prop :=
  ∀ i ∈ db.tray_items, (∀ h ∈ i.qty_on_hand, 0 ≤ h) ∧ (∀ e ∈ i.qty_expected, 0 ≤ e)

/-- Seed payload: item whose on-hand count (10) exceeds its expected
quantity (5); both pass the `ge=0` validation. -/
def itemSeedOver : CreateTrayItemIn :=
  { tray_id := 1, sku := "S", qty_expected := some 5, qty_on_hand := some 10 }

/-- Trace: tray 1 holding one over-stocked item. -/
def traceOverDB : DB :=
  match create_tray_item traceT1 itemSeedOver with
  | Except.ok d => d
  | Except.error _ => DB.init

/-- Partial-restock request reporting `qty_restocked = 0` for item 1. -/
def reqZeroQty : RestockPartialRequest :=
  { tray_id := 1, user_id := "rep006", items := [{ item_id := 1, qty_restocked := some 0 }]
    new_priority := NewPriority.num 1 }

/-- Trace: partial restock of the over-stocked tray reporting a zero
quantity. -/
def traceZeroDB : DB :=
  match restock_partial_op traceOverDB reqZeroQty 3 with
  | Except.ok (d, _) => d
  | _ => DB.init

/-- Inventory-check line item reporting four units used of item 1. -/
def chkItemS : InventoryCheckItem :=
  { item_id := 1, reason := some "low", qty_missing := some 4, qty_used := some 4 }

/-- Trace: one iteration of the inventory-check item loop on the seeded
store. -/
def traceChkDB : DB :=
  match check_one_item traceT2 1 1 chkItemS with
  | Except.ok d => d
  | Except.error _ => DB.init

/-- The sub-item row of `traceT2`. -/
def itemRecS : TrayItem :=
  { id := 1, tray_id := 1, sku := "S", qty_expected := some 10, qty_on_hand := some 10 }

/-- The open restock task of `traceT3`. -/
def taskOpenT3 : RestockTask :=
  { id := 1, tray_id := 1, status := RestockStatus.open_, created_at := 1, updated_at := 1 }

/-- The same task after the full restock of `traceFullDB` closed it. -/
def taskClosedFull : RestockTask :=
  { id := 1, tray_id := 1, status := RestockStatus.closed, created_at := 1, updated_at := 7 }

/-! ### Generic list lemmas -/

theorem map_id_of_mem {α : Type} {l : List α} {f : α → α} (h : ∀ a ∈ l, f a = a) :
    l.map f = l := by
  induction l with
  | nil => rfl
  | cons a l ih =>
    simp only [List.map_cons]
    rw [h a (by simp), ih (fun b hb => h b (by simp [hb]))]

theorem find?_map_comm {α : Type} (g : α → α) (p : α → Bool)
    (hp : ∀ a, p (g a) = p a) (l : List α) :
    (l.map g).find? p = (l.find? p).map g := by
  induction l with
  | nil => rfl
  | cons a l ih =>
    simp only [List.map_cons, List.find?]
    rw [hp a]
    cases h : p a <;> simp [h, ih]

theorem filter_map_comm {α : Type} (g : α → α) (p : α → Bool)
    (hp : ∀ a, p (g a) = p a) (l : List α) :
    (l.map g).filter p = (l.filter p).map g := by
  induction l with
  | nil => rfl
  | cons a l ih =>
    simp only [List.map_cons, List.filter]
    rw [hp a]
    cases h : p a <;> simp [h, ih]

theorem map_key_of_preserve {α : Type} (key : α → Nat) (g : α → α)
    (h : ∀ x, key (g x) = key x) (l : List α) :
    (l.map g).map key = l.map key := by
  induction l with
  | nil => rfl
  | cons a l ih => simp [h, ih]

/-! ### Basic facts about the store helpers -/

theorem openTaskFor_congr {db db' : DB} (h : db'.tasks = db.tasks) (tid : Nat) :
    openTaskFor db' tid = openTaskFor db tid := by
  unfold openTaskFor
  rw [h]

theorem find?_key_of_mem_nodup {α : Type} (key : α → Nat) {l : List α}
    (hnd : (l.map key).Nodup) {t : α} (ht : t ∈ l) :
    l.find? (fun x => decide (key x = key t)) = some t := by
  induction l with
  | nil => cases ht
  | cons x l ih =>
    simp only [List.map_cons, List.nodup_cons] at hnd
    rcases List.mem_cons.mp ht with rfl | htl
    · simp [List.find?]
    · have hne : key x ≠ key t := by
        intro he
        exact hnd.1 (he ▸ (List.mem_map.mpr ⟨t, htl, rfl⟩))
      rw [List.find?_cons_of_neg _ (by simp [hne])]
      exact ih hnd.2 htl

theorem openTaskFor_props {db : DB} {tid : Nat} {t : RestockTask}
    (h : openTaskFor db tid = some t) :
    t ∈ db.tasks ∧ t.tray_id = tid ∧ t.status = RestockStatus.open_ := by
  refine ⟨List.mem_of_find?_eq_some h, ?_⟩
  have := List.find?_some h
  simpa using this

theorem openTaskFor_eq_none_iff {db : DB} {tid : Nat} :
    openTaskFor db tid = none ↔
      ∀ t ∈ db.tasks, ¬(t.tray_id = tid ∧ t.status = RestockStatus.open_) := by
  unfold openTaskFor
  rw [List.find?_eq_none]
  simp

theorem findTray_props {db : DB} {tid : Nat} {t : Tray} (h : findTray db tid = some t) :
    t ∈ db.trays ∧ t.id = tid := by
  refine ⟨List.mem_of_find?_eq_some h, ?_⟩
  have := List.find?_some h
  simpa using this

theorem findTrayItem_props {db : DB} {iid : Nat} {i : TrayItem}
    (h : findTrayItem db iid = some i) : i ∈ db.tray_items ∧ i.id = iid := by
  refine ⟨List.mem_of_find?_eq_some h, ?_⟩
  have := List.find?_some h
  simpa using this

theorem unresolvedRows_congr {db db' : DB} (h : db'.task_items = db.task_items)
    (tid : Nat) : unresolvedRows db' tid = unresolvedRows db tid := by
  unfold unresolvedRows
  rw [h]

theorem ensure_of_found {db : DB} {tid : Nat} (now : Nat) {t : RestockTask}
    (h : openTaskFor db tid = some t) :
    ensure_open_restock_task db tid now = (t, db) := by
  unfold ensure_open_restock_task
  rw [h]

theorem ensure_of_none {db : DB} {tid : Nat} (now : Nat)
    (h : openTaskFor db tid = none) :
    ensure_open_restock_task db tid now =
      ({ id := db.next_task_id, tray_id := tid, status := RestockStatus.open_
         created_at := now, updated_at := now },
       { db with
         tasks := db.tasks ++
           [{ id := db.next_task_id, tray_id := tid, status := RestockStatus.open_
              created_at := now, updated_at := now }]
         next_task_id := db.next_task_id + 1 }) := by
  unfold ensure_open_restock_task
  rw [h]

/-- The task returned by the get-or-create helper is the first open task of
the tray in the resulting store. -/
theorem ensure_open_after (db : DB) (tid now : Nat) :
    openTaskFor (ensure_open_restock_task db tid now).2 tid
      = some (ensure_open_restock_task db tid now).1 := by
  cases h : openTaskFor db tid with
  | some t => rw [ensure_of_found now h]; exact h
  | none =>
    rw [ensure_of_none now h]
    unfold openTaskFor at h ⊢
    simp only
    rw [List.find?_append, h]
    simp

/-- Rebuild well-formedness when the task/row/item tables are untouched. -/
theorem wf_of_core_eq {db db' : DB}
    (htasks : db'.tasks = db.tasks) (hrows : db'.task_items = db.task_items)
    (hitems : db'.tray_items = db.tray_items)
    (hnext : db'.next_task_id = db.next_task_id) (hwf : WF db) : WF db' := by
  obtain ⟨h1, h2, h3, h4, h5, h6⟩ := hwf
  refine ⟨?_, ?_, ?_, ?_, ?_, ?_⟩
  · rw [htasks, hnext]; exact h1
  · rw [htasks]; exact h2
  · rw [hrows, hnext]; exact h3
  · rw [htasks]; exact h4
  · intro t ht hopen
    rw [htasks] at ht
    rw [unresolvedRows_congr hrows]
    exact h5 t ht hopen
  · rw [hitems]; exact h6

theorem apply_restock_qty_core (tid : Nat) (l : List RestockPartialItem) (db : DB) :
    ((apply_restock_qty db tid l).tasks, (apply_restock_qty db tid l).task_items,
     (apply_restock_qty db tid l).trays, (apply_restock_qty db tid l).next_task_id,
     (apply_restock_qty db tid l).next_row_id)
      = (db.tasks, db.task_items, db.trays, db.next_task_id, db.next_row_id) := by
  induction l generalizing db with
  | nil => rfl
  | cons ip rest ih =>
    unfold apply_restock_qty
    refine (ih _).trans ?_
    rcases hf : findTrayItem db ip.item_id with _ | item <;> simp only [hf]
    by_cases h1 : item.tray_id = tid <;> simp only [h1, if_true, if_false]
    rcases hq : ip.qty_restocked with _ | q <;> simp only [hq]
    by_cases h2 : q > 0 <;> simp only [h2, if_true, if_false]

theorem close_spec {db : DB} {tid : Nat} (now : Nat) {task : RestockTask}
    (hopen : openTaskFor db tid = some task) :
    (unresolvedRows db task.id = [] →
      close_restock_task_if_empty db tid now =
        { db with tasks := db.tasks.map (fun t =>
            if t.id = task.id then { t with status := RestockStatus.closed, updated_at := now }
            else t) })
    ∧ (unresolvedRows db task.id ≠ [] → close_restock_task_if_empty db tid now = db) := by
  unfold close_restock_task_if_empty
  rw [hopen]
  constructor <;> intro h <;> simp [h]

theorem findTask_append_fresh {db : DB} (hW1 : ∀ t ∈ db.tasks, t.id < db.next_task_id)
    {fresh : RestockTask} (hid : fresh.id = db.next_task_id) :
    (db.tasks ++ [fresh]).find? (fun x => decide (x.id = fresh.id)) = some fresh := by
  rw [List.find?_append]
  have hnone : db.tasks.find? (fun x => decide (x.id = fresh.id)) = none := by
    rw [List.find?_eq_none]
    intro t ht
    simp only [decide_eq_true_eq]
    intro he
    have := hW1 t ht
    omega
  rw [hnone]
  simp

theorem findTask_congr {db db' : DB} (h : db'.tasks = db.tasks) (x : Nat) :
    findTask db' x = findTask db x := by
  unfold findTask
  rw [h]

theorem findTray_congr {db db' : DB} (h : db'.trays = db.trays) (x : Nat) :
    findTray db' x = findTray db x := by
  unfold findTray
  rw [h]

theorem unresolvedRows_mk (db : DB) (ts : List Tray) (tk : List RestockTask) (tid : Nat) :
    unresolvedRows { db with trays := ts, tasks := tk } tid = unresolvedRows db tid := rfl

theorem findTask_mk (db : DB) (ts : List Tray) (tk : List RestockTask) (x : Nat) :
    findTask { db with trays := ts, tasks := tk } x
      = tk.find? (fun t => decide (t.id = x)) := rfl

theorem findTray_mk (db : DB) (ts : List Tray) (tk : List RestockTask) (x : Nat) :
    findTray { db with trays := ts, tasks := tk } x
      = ts.find? (fun t => decide (t.id = x)) := rfl

theorem close_on_trays_update (db3 : DB) (g : Tray → Tray) (tid now : Nat) :
    close_restock_task_if_empty { db3 with trays := db3.trays.map g } tid now
      = { close_restock_task_if_empty db3 tid now with trays := db3.trays.map g } := by
  unfold close_restock_task_if_empty
  rw [@openTaskFor_congr db3 { db3 with trays := db3.trays.map g } rfl tid]
  cases h : openTaskFor db3 tid with
  | none => rfl
  | some task =>
    simp only
    rw [@unresolvedRows_congr db3 { db3 with trays := db3.trays.map g } rfl task.id]
    by_cases hrem : unresolvedRows db3 task.id = [] <;> simp [hrem]

theorem finish_partial_spec (db3 : DB) (tray : Tray) (task : RestockTask)
    (np : NewPriority) (now : Nat)
    (hopen : openTaskFor db3 tray.id = some task)
    (hfind : findTask db3 task.id = some task)
    (hft3 : findTray db3 tray.id = some tray) :
    RestockPartialPost tray.id np ( finish_partial db3 tray task.id np now) task.id := by
  obtain ⟨htmem, _, hopenstat⟩ := openTaskFor_props hopen
  unfold RestockPartialPost
  simp only [ finish_partial]
  rw [close_on_trays_update]
  rcases np with _ | n <;> by_cases hrem : unresolvedRows db3 task.id = []
  · rw [(close_spec now hopen).1 hrem]
    simp only [hrem, ne_eq, not_true_eq_false, if_false, ite_false]
    rw [unresolvedRows_mk, hrem]
    refine ⟨{ tray with status := TrayStatus.ready, priority_numeric := none, priority_partialFlag := false, color := map_color none false (decide True) }, ?_, ?_, ?_, ?_, ?_⟩
    · rw [findTray_mk]
      rw [find?_map_comm _ _ ?hpA]
      case hpA =>
        intro t
        by_cases ht : t.id = tray.id <;> simp [ht]
      unfold findTray at hft3
      rw [hft3]
      simp
    · intro h
      exact absurd rfl h
    · intro _
      refine ⟨rfl, ?_⟩
      rw [findTask_mk]
      rw [find?_map_comm _ _ ?hptA]
      case hptA =>
        intro t
        by_cases ht : t.id = task.id <;> simp [ht]
      unfold findTask at hfind
      rw [hfind]
      exact ⟨{ task with status := RestockStatus.closed, updated_at := now }, by simp, rfl⟩
    · intro _
      exact ⟨rfl, by simp⟩
    · intro m hm
      simp at hm
  · rw [(close_spec now hopen).2 hrem]
    simp only [hrem, ne_eq, not_false_eq_true, if_true, ite_true]
    rw [unresolvedRows_mk]
    refine ⟨{ tray with status := TrayStatus.needs_restock, priority_numeric := none, priority_partialFlag := true, color := map_color none true (decide (TrayStatus.needs_restock = TrayStatus.ready)) }, ?_, ?_, ?_, ?_, ?_⟩
    · rw [findTray_mk]
      rw [find?_map_comm _ _ ?hpB]
      case hpB =>
        intro t
        by_cases ht : t.id = tray.id <;> simp [ht]
      unfold findTray at hft3
      rw [hft3]
      simp
    · intro _
      refine ⟨rfl, ?_⟩
      rw [findTask_mk]
      exact ⟨task, hfind, hopenstat⟩
    · intro h
      exact absurd h hrem
    · intro _
      exact ⟨rfl, by simp [hrem]⟩
    · intro m hm
      simp at hm
  · rw [(close_spec now hopen).1 hrem]
    simp only [hrem, ne_eq, not_true_eq_false, if_false, ite_false]
    rw [unresolvedRows_mk, hrem]
    refine ⟨{ tray with status := TrayStatus.ready, priority_numeric := some n, priority_partialFlag := false, color := map_color (some n) false (decide True) }, ?_, ?_, ?_, ?_, ?_⟩
    · rw [findTray_mk]
      rw [find?_map_comm _ _ ?hpC]
      case hpC =>
        intro t
        by_cases ht : t.id = tray.id <;> simp [ht]
      unfold findTray at hft3
      rw [hft3]
      simp
    · intro h
      exact absurd rfl h
    · intro _
      refine ⟨rfl, ?_⟩
      rw [findTask_mk]
      rw [find?_map_comm _ _ ?hptC]
      case hptC =>
        intro t
        by_cases ht : t.id = task.id <;> simp [ht]
      unfold findTask at hfind
      rw [hfind]
      exact ⟨{ task with status := RestockStatus.closed, updated_at := now }, by simp, rfl⟩
    · intro hm
      simp at hm
    · intro m hm
      simp only [NewPriority.num.injEq] at hm
      subst hm
      exact ⟨rfl, rfl⟩
  · rw [(close_spec now hopen).2 hrem]
    simp only [hrem, ne_eq, not_false_eq_true, if_true, ite_true]
    rw [unresolvedRows_mk]
    refine ⟨{ tray with status := TrayStatus.needs_restock, priority_numeric := some n, priority_partialFlag := false, color := map_color (some n) false (decide (TrayStatus.needs_restock = TrayStatus.ready)) }, ?_, ?_, ?_, ?_, ?_⟩
    · rw [findTray_mk]
      rw [find?_map_comm _ _ ?hpD]
      case hpD =>
        intro t
        by_cases ht : t.id = tray.id <;> simp [ht]
      unfold findTray at hft3
      rw [hft3]
      simp
    · intro _
      refine ⟨rfl, ?_⟩
      rw [findTask_mk]
      exact ⟨task, hfind, hopenstat⟩
    · intro h
      exact absurd h hrem
    · intro hm
      simp at hm
    · intro m hm
      simp only [NewPriority.num.injEq] at hm
      subst hm
      exact ⟨rfl, rfl⟩

/-- Claim C7: after a successful partial restock, if unresolved task-items
remain under the get-or-created task the tray is `needs_restock` and the
task stays open, otherwise the tray is `ready` and the task is closed;
`new_priority = "partial"` maps to `(none, true)` exactly when items
remain and a numeric `new_priority` is assigned verbatim as `(n, false)`,
not merged. -/
theorem restock_partial_post (db : DB) (p : RestockPartialRequest) (now : Nat)
    (db' : DB) (taskId : Nat) (tray : Tray) (hwf : WF db)
    (hft : findTray db p.tray_id = some tray)
    (hok : restock_partial_op db p now = Except.ok (db', taskId)) :
    RestockPartialPost p.tray_id p.new_priority db' taskId := by
  obtain ⟨hmem, hid⟩ := findTray_props hft
  by_cases hi : p.items = []
  · unfold restock_partial_op at hok
    rw [hft] at hok
    simp only at hok
    rw [if_pos hi] at hok
    cases hok
  unfold restock_partial_op at hok
  rw [hft] at hok
  simp only at hok
  rw [if_neg hi] at hok
  cases hot : openTaskFor db tray.id with
  | some task =>
    rw [ensure_of_found now hot] at hok
    simp only at hok
    rw [Except.ok.injEq, Prod.mk.injEq] at hok
    obtain ⟨hA, hB⟩ := hok
    subst hB
    subst hA
    rw [← hid]
    obtain ⟨htmem, htray_id, htstat⟩ := openTaskFor_props hot
    have harq := apply_restock_qty_core tray.id p.items db
    simp only [Prod.mk.injEq] at harq
    obtain ⟨hat, har, hay, han, harw⟩ := harq
    have h3t : (resolve_rows (apply_restock_qty db tray.id p.items) task.id p.items p.user_id now).tasks = db.tasks := hat
    have h3y : (resolve_rows (apply_restock_qty db tray.id p.items) task.id p.items p.user_id now).trays = db.trays := hay
    apply finish_partial_spec _ tray task _ now ?_ ?_ ?_
    · rw [openTaskFor_congr h3t]
      exact hot
    · rw [findTask_congr h3t]
      exact find?_key_of_mem_nodup RestockTask.id hwf.2.1 htmem
    · rw [findTray_congr h3y]
      rw [hid]
      exact hft
  | none =>
    rw [ensure_of_none now hot] at hok
    simp only at hok
    rw [Except.ok.injEq, Prod.mk.injEq] at hok
    obtain ⟨hA, hB⟩ := hok
    subst hB
    subst hA
    rw [← hid]
    have harq := apply_restock_qty_core tray.id p.items
      { db with
        tasks := db.tasks ++
          [{ id := db.next_task_id, tray_id := tray.id, status := RestockStatus.open_
             created_at := now, updated_at := now }]
        next_task_id := db.next_task_id + 1 }
    simp only [Prod.mk.injEq] at harq
    obtain ⟨hat, har, hay, han, harw⟩ := harq
    have h3t : (resolve_rows (apply_restock_qty
        { db with
          tasks := db.tasks ++
            [{ id := db.next_task_id, tray_id := tray.id, status := RestockStatus.open_
               created_at := now, updated_at := now }]
          next_task_id := db.next_task_id + 1 } tray.id p.items)
          db.next_task_id p.items p.user_id now).tasks
        = ({ db with
             tasks := db.tasks ++
               [{ id := db.next_task_id, tray_id := tray.id, status := RestockStatus.open_
                  created_at := now, updated_at := now }]
             next_task_id := db.next_task_id + 1 } : DB).tasks := hat
    have h3y : (resolve_rows (apply_restock_qty
        { db with
          tasks := db.tasks ++
            [{ id := db.next_task_id, tray_id := tray.id, status := RestockStatus.open_
               created_at := now, updated_at := now }]
          next_task_id := db.next_task_id + 1 } tray.id p.items)
          db.next_task_id p.items p.user_id now).trays
        = ({ db with
             tasks := db.tasks ++
               [{ id := db.next_task_id, tray_id := tray.id, status := RestockStatus.open_
                  created_at := now, updated_at := now }]
             next_task_id := db.next_task_id + 1 } : DB).trays := hay
    apply finish_partial_spec _ tray
      { id := db.next_task_id, tray_id := tray.id, status := RestockStatus.open_
        created_at := now, updated_at := now } _ now ?_ ?_ ?_
    · rw [openTaskFor_congr h3t]
      unfold openTaskFor at hot ⊢
      dsimp only
      rw [List.find?_append, hot]
      simp
    · rw [findTask_congr h3t]
      unfold findTask
      dsimp only
      exact @findTask_append_fresh db hwf.1
        { id := db.next_task_id, tray_id := tray.id, status := RestockStatus.open_
          created_at := now, updated_at := now } rfl
    · rw [findTray_congr h3y]
      rw [hid]
      exact hft


/-- Witness for `restock_partial_post`: partially restocking `traceT3`
resolves its only unresolved row, closing the task. -/
theorem restock_partial_post_witness :
    (WF traceT3 ∧ findTray traceT3 1 = some trayT3rec
      ∧ restock_partial_op traceT3 reqPartialResolve 9 = Except.ok (tracePartialDB, 1))
    ∧ RestockPartialPost 1 NewPriority.partialKw tracePartialDB 1 :=
  ⟨⟨by decide, by decide, rfl⟩,
    restock_partial_post traceT3 reqPartialResolve 9 tracePartialDB 1 trayT3rec
      (by decide) (by decide) rfl⟩

theorem openTaskFor_mk (db : DB) (ts : List Tray) (tk : List RestockTask) (x : Nat) :
    openTaskFor { db with trays := ts, tasks := tk } x
      = tk.find? (fun t => decide (t.tray_id = x ∧ t.status = RestockStatus.open_)) := rfl

theorem close_rows (db : DB) (tid now : Nat) :
    (close_restock_task_if_empty db tid now).task_items = db.task_items := by
  unfold close_restock_task_if_empty
  cases h : openTaskFor db tid with
  | none => rfl
  | some task =>
    by_cases hrem : unresolvedRows db task.id = [] <;> simp [hrem]

theorem finish_partial_rows (db3 : DB) (tray : Tray) (taskId : Nat)
    (np : NewPriority) (now : Nat) :
    ( finish_partial db3 tray taskId np now).task_items = db3.task_items := by
  simp only [ finish_partial]
  rw [close_on_trays_update]
  exact close_rows db3 tray.id now

theorem findTrayItem_congr {db db' : DB} (h : db'.tray_items = db.tray_items) (x : Nat) :
    findTrayItem db' x = findTrayItem db x := by
  unfold findTrayItem
  rw [h]

theorem check_one_item_items {db db' : DB} {a b : Nat} {it : InventoryCheckItem}
    (h : check_one_item db a b it = Except.ok db') :
    ∃ g : TrayItem → TrayItem, (∀ j, (g j).id = j.id ∧ (g j).tray_id = j.tray_id)
      ∧ db'.tray_items = db.tray_items.map g := by
  unfold check_one_item at h
  cases hf : findTrayItem db it.item_id with
  | none =>
    rw [hf] at h
    cases h
  | some item =>
    rw [hf] at h
    simp only at h
    by_cases htr : item.tray_id ≠ a
    · rw [if_pos htr] at h
      cases h
    rw [if_neg htr] at h
    rcases hq : it.qty_used with _ | u
    all_goals rw [hq] at h; simp only at h
    · -- qty_used = none: db_q = db
      cases hfind : db.task_items.find? (fun r =>
          decide (r.task_id = b ∧ r.item_id = it.item_id ∧ r.restocked = false)) with
      | none =>
        rw [hfind] at h
        rw [Except.ok.injEq] at h
        subst h
        exact ⟨id, by simp, by simp⟩
      | some existing =>
        rw [hfind] at h
        rw [Except.ok.injEq] at h
        subst h
        exact ⟨id, by simp, by simp⟩
    · -- qty_used = some u
      by_cases hu : u > 0
      · rw [if_pos hu] at h
        cases hfind : (db.task_items).find? (fun r =>
            decide (r.task_id = b ∧ r.item_id = it.item_id ∧ r.restocked = false)) with
        | none =>
          rw [hfind] at h
          rw [Except.ok.injEq] at h
          subst h
          refine ⟨fun j => if j.id = item.id then
            { j with qty_on_hand := some (max 0 (j.qty_on_hand.getD 0 - u)) } else j, ?_, by simp⟩
          intro j
          by_cases hj : j.id = item.id <;> simp [hj]
        | some existing =>
          rw [hfind] at h
          rw [Except.ok.injEq] at h
          subst h
          refine ⟨fun j => if j.id = item.id then
            { j with qty_on_hand := some (max 0 (j.qty_on_hand.getD 0 - u)) } else j, ?_, by simp⟩
          intro j
          by_cases hj : j.id = item.id <;> simp [hj]
      · rw [if_neg hu] at h
        cases hfind : db.task_items.find? (fun r =>
            decide (r.task_id = b ∧ r.item_id = it.item_id ∧ r.restocked = false)) with
        | none =>
          rw [hfind] at h
          rw [Except.ok.injEq] at h
          subst h
          exact ⟨id, by simp, by simp⟩
        | some existing =>
          rw [hfind] at h
          rw [Except.ok.injEq] at h
          subst h
          exact ⟨id, by simp, by simp⟩

theorem check_one_item_bad {db : DB} {a b : Nat} {it : InventoryCheckItem}
    (hbad : ∀ i, findTrayItem db it.item_id = some i → i.tray_id ≠ a) :
    ∃ e, check_one_item db a b it = Except.error e := by
  unfold check_one_item
  cases hf : findTrayItem db it.item_id with
  | none => exact ⟨ApiError.itemNotInTray it.item_id, rfl⟩
  | some item =>
    refine ⟨ApiError.itemNotInTray it.item_id, ?_⟩
    simp only
    rw [if_pos (hbad item hf)]

theorem processCheckItems_bad {trayId taskId : Nat} :
    ∀ (l : List InventoryCheckItem) (db : DB),
    (∃ it ∈ l, ∀ i, findTrayItem db it.item_id = some i → i.tray_id ≠ trayId) →
    ∃ e, processCheckItems db trayId taskId l = Except.error e := by
  intro l
  induction l with
  | nil =>
    intro db hbad
    obtain ⟨it, hmem, _⟩ := hbad
    cases hmem
  | cons it rest ih =>
    intro db hbad
    obtain ⟨it0, hmem, hb0⟩ := hbad
    rcases List.mem_cons.mp hmem with rfl | hmemr
    · obtain ⟨e, he⟩ := check_one_item_bad hb0
      refine ⟨e, ?_⟩
      unfold processCheckItems
      rw [he]
    · cases hco : check_one_item db trayId taskId it with
      | error e =>
        refine ⟨e, ?_⟩
        unfold processCheckItems
        rw [hco]
      | ok db1 =>
        obtain ⟨g, hg, hgl⟩ := check_one_item_items hco
        have hb1 : ∀ i, findTrayItem db1 it0.item_id = some i → i.tray_id ≠ trayId := by
          intro i hi
          unfold findTrayItem at hi
          rw [hgl] at hi
          rw [find?_map_comm g _ (fun j => by simp [(hg j).1]) db.tray_items] at hi
          cases hf0 : db.tray_items.find? (fun x => decide (x.id = it0.item_id)) with
          | none =>
            rw [hf0] at hi
            cases hi
          | some i0 =>
            rw [hf0] at hi
            have hgi : g i0 = i := by simpa using hi
            subst hgi
            rw [(hg i0).2]
            exact hb0 i0 hf0
        obtain ⟨e, he⟩ := ih db1 ⟨it0, hmemr, hb1⟩
        refine ⟨e, ?_⟩
        unfold processCheckItems
        rw [hco]
        exact he

/-! ### Claims about the pure priority/color engine -/

/-- Claim C2: `map_color` is a total pure function; `ready` always yields
green, else numeric 1/2/3 yield red/orange/yellow, else a set partial flag
yields blue, else green. -/
theorem map_color_spec (pn : Option Int) (pf ready : Bool) :
    map_color pn pf ready =
      if ready then COLOR_GREEN
      else if pn = some 1 then COLOR_RED
      else if pn = some 2 then COLOR_ORANGE
      else if pn = some 3 then COLOR_YELLOW
      else if pf then COLOR_BLUE
      else COLOR_GREEN := by
  rcases pn with _ | n <;> cases pf <;> cases ready <;> simp [map_color]

/-- Claim C1: the priority merge is monotonic non-downgrade.  The incoming
numeric is adopted exactly when there is no existing numeric or the
incoming one is strictly greater; and whenever an existing numeric is
present the merged numeric is present and at least as large. -/
theorem priority_merge_non_downgrade (en : Option Int) (ep : Bool)
    (inn : Option Int) (inp : Option Bool) :
    (inn ≠ en →
      ((apply_priority_non_downgrade en ep inn inp).1 = inn ↔
        (en = none ∨ ∃ e n, en = some e ∧ inn = some n ∧ e < n)))
    ∧ (∀ e, en = some e →
        ∃ v, (apply_priority_non_downgrade en ep inn inp).1 = some v ∧ e ≤ v) := by
  constructor
  · intro hne
    rcases en with _ | e <;> rcases inn with _ | n <;>
      simp_all [apply_priority_non_downgrade]
    omega
  · intro e he
    subst he
    rcases inn with _ | n
    · exact ⟨e, rfl, le_refl e⟩
    · by_cases h : n > e
      · exact ⟨n, by simp [apply_priority_non_downgrade, h], le_of_lt h⟩
      · exact ⟨e, by simp [apply_priority_non_downgrade, h], le_refl e⟩

/-- Witness for `priority_merge_non_downgrade` at the spec's scenario: an
incoming numeric hint of 2 against an existing numeric 3 keeps 3. -/
theorem priority_merge_non_downgrade_witness :
    ((some 2 : Option Int) ≠ some 3)
    ∧ (∃ v, (apply_priority_non_downgrade (some 3) false (some 2) (some false)).1 = some v
        ∧ (3 : Int) ≤ v) :=
  ⟨by decide, (priority_merge_non_downgrade (some 3) false (some 2) (some false)).2 3 rfl⟩

/-- Claim C3 fails on the code: merging an incoming numeric into a state
whose partial flag is set keeps the partial flag, so `priority_partial`
and `priority_numeric` end up set simultaneously — and the state is
reachable by two inventory checks from an empty store. -/
theorem priority_exclusivity_violated :
    apply_priority_non_downgrade none true (some 2) (some false) = (some 2, true)
    ∧ Reachable traceT4
    ∧ (findTray traceT4 1).map (fun t => (t.priority_numeric, t.priority_partialFlag))
        = some (some 2, true) := by
  refine ⟨by decide, ?_, by decide⟩
  have h1 : Reachable traceT1 :=
    Reachable.step Reachable.init (Step.createTray "A" rfl)
  have h2 : Reachable traceT2 :=
    Reachable.step h1 (Step.createItem itemSeedS (by decide) rfl)
  have h3 : Reachable traceT3 :=
    Reachable.step h2 (Step.invCheck reqPartialHint 1 (by decide) rfl)
  exact Reachable.step h3 (Step.invCheck reqNumericHint 2 (by decide) rfl)

/-- Claim C6: a successful full restock marks every still-unresolved
task-item of the tray's open task resolved (with resolver identity and
timestamp), closes that task, resets the tray to ready with priority
`(none, false)` and color green, and sets `qty_on_hand = qty_expected`
for every sub-item that has an expected quantity. -/
theorem restock_full_post (db : DB) (p : RestockFullRequest) (now : Nat) (db' : DB)
    (tray : Tray) (hwf : WF db) (hft : findTray db p.tray_id = some tray)
    (hok : restock_full db p now = Except.ok db') :
    RestockFullPost db p now db' := by
  unfold RestockFullPost
  obtain ⟨hmem, hid⟩ := findTray_props hft
  unfold restock_full at hok
  rw [hft] at hok
  simp only at hok
  rw [show (openTaskFor { db with tray_items := db.tray_items.map (fun i =>
        if i.tray_id = tray.id then
          (match i.qty_expected with
           | some e => { i with qty_on_hand := some e }
           | none => i)
        else i) } tray.id) = openTaskFor db tray.id from openTaskFor_congr rfl tray.id] at hok
  cases hot : openTaskFor db tray.id with
  | none =>
    rw [hot] at hok
    simp only at hok
    rw [Except.ok.injEq] at hok
    subst hok
    refine ⟨?_, ?_, ?_⟩
    · refine ⟨{ tray with status := TrayStatus.ready, priority_numeric := none, priority_partialFlag := false, color := map_color none false true }, ?_, rfl, rfl, rfl, rfl⟩
      unfold findTray at hft ⊢
      dsimp only
      rw [find?_map_comm _ _ ?hp, hft]
      case hp =>
        intro t
        by_cases ht : t.id = tray.id
        · simp [ht, hid]
        · rw [hid] at ht
          simp [ht, hid]
      simp [hid]
    · intro iid i hfi htray e he
      refine ⟨{ i with qty_on_hand := some e }, ?_, rfl⟩
      obtain ⟨_, hiid⟩ := findTrayItem_props hfi
      unfold findTrayItem at hfi ⊢
      dsimp only
      rw [find?_map_comm _ _ ?hpi, hfi]
      case hpi =>
        intro j
        by_cases hj : j.tray_id = tray.id <;> cases hje : j.qty_expected <;> simp [hj, hje]
      have htray' : i.tray_id = tray.id := by rw [htray, hid]
      simp [htray', he]
    · intro task htask
      rw [← hid] at htask
      rw [hot] at htask
      cases htask
  | some task =>
    rw [hot] at hok
    simp only at hok
    rw [Except.ok.injEq] at hok
    subst hok
    refine ⟨?_, ?_, ?_⟩
    · refine ⟨{ tray with status := TrayStatus.ready, priority_numeric := none, priority_partialFlag := false, color := map_color none false true }, ?_, rfl, rfl, rfl, rfl⟩
      unfold findTray at hft ⊢
      dsimp only
      rw [find?_map_comm _ _ ?hp2, hft]
      case hp2 =>
        intro t
        by_cases ht : t.id = tray.id
        · simp [ht, hid]
        · rw [hid] at ht
          simp [ht, hid]
      simp [hid]
    · intro iid i hfi htray e he
      refine ⟨{ i with qty_on_hand := some e }, ?_, rfl⟩
      obtain ⟨_, hiid⟩ := findTrayItem_props hfi
      unfold findTrayItem at hfi ⊢
      dsimp only
      rw [find?_map_comm _ _ ?hpi2, hfi]
      case hpi2 =>
        intro j
        by_cases hj : j.tray_id = tray.id <;> cases hje : j.qty_expected <;> simp [hj, hje]
      have htray' : i.tray_id = tray.id := by rw [htray, hid]
      simp [htray', he]
    · intro task' htask'
      rw [← hid] at htask'
      rw [hot] at htask'
      rw [Option.some.injEq] at htask'
      subst htask'
      obtain ⟨htmem, _, _⟩ := openTaskFor_props hot
      constructor
      · refine ⟨{ task with status := RestockStatus.closed, updated_at := now }, ?_, rfl⟩
        unfold findTask
        dsimp only
        rw [find?_map_comm _ _ ?hpt]
        case hpt =>
          intro t
          by_cases ht : t.id = task.id <;> simp [ht]
        rw [show db.tasks.find? (fun x => decide (x.id = task.id)) = some task from
          find?_key_of_mem_nodup RestockTask.id hwf.2.1 htmem]
        simp
      · intro rid r hfr htid hres
        unfold findRow at hfr ⊢
        dsimp only
        rw [find?_map_comm _ _ ?hpr, hfr]
        case hpr =>
          intro s
          by_cases hs : s.task_id = task.id ∧ s.restocked = false <;> simp [hs]
        simp [htid, hres]

/-- Witness for `restock_full_post` on the concrete trace `traceT3` (one
flagged tray with an open task holding one unresolved row). -/
theorem restock_full_post_witness :
    (WF traceT3 ∧ findTray traceT3 1 = some trayT3rec
      ∧ restock_full traceT3 reqFull 7 = Except.ok traceFullDB)
    ∧ RestockFullPost traceT3 reqFull 7 traceFullDB :=
  ⟨⟨by decide, by decide, rfl⟩,
    restock_full_post traceT3 reqFull 7 traceFullDB trayT3rec (by decide) (by decide) rfl⟩

/-- Claim C10: a partial restock with a non-empty item list on a tray with
no open restock task succeeds, creates the task, resolves nothing, sets
the tray ready with priority `(none, false)` (under `"partial"`), and
closes the task in the same call. -/
theorem restock_partial_fresh (db : DB) (p : RestockPartialRequest) (now : Nat) (tray : Tray)
    (hwf : WF db) (hft : findTray db p.tray_id = some tray)
    (hnone : openTaskFor db p.tray_id = none) (hne : p.items ≠ [])
    (hpk : p.new_priority = NewPriority.partialKw) :
    ∃ db', restock_partial_op db p now = Except.ok (db', db.next_task_id)
      ∧ RestockPartialFreshPost db p.tray_id db' db.next_task_id := by
  obtain ⟨hmem, hid⟩ := findTray_props hft
  rw [← hid] at hnone
  unfold restock_partial_op
  rw [hft]
  simp only
  rw [if_neg hne]
  rw [ensure_of_none now hnone]
  simp only
  refine ⟨_, rfl, ?_⟩
  rw [hpk, ← hid]
  have harq := apply_restock_qty_core tray.id p.items
    { db with
      tasks := db.tasks ++
        [{ id := db.next_task_id, tray_id := tray.id, status := RestockStatus.open_
           created_at := now, updated_at := now }]
      next_task_id := db.next_task_id + 1 }
  simp only [Prod.mk.injEq] at harq
  obtain ⟨hat, har, hay, han, harw⟩ := harq
  have hrowsD3 : (resolve_rows (apply_restock_qty
      { db with
        tasks := db.tasks ++
          [{ id := db.next_task_id, tray_id := tray.id, status := RestockStatus.open_
             created_at := now, updated_at := now }]
        next_task_id := db.next_task_id + 1 } tray.id p.items)
        db.next_task_id p.items p.user_id now).task_items = db.task_items := by
    show (apply_restock_qty _ tray.id p.items).task_items.map _ = db.task_items
    rw [har]
    apply map_id_of_mem
    intro r hr
    have hW3 := hwf.2.2.1 r hr
    have hng : ¬(r.task_id = db.next_task_id ∧ r.restocked = false) := by
      intro hc
      omega
    simp [hng]
  have hrem3 : unresolvedRows (resolve_rows (apply_restock_qty
      { db with
        tasks := db.tasks ++
          [{ id := db.next_task_id, tray_id := tray.id, status := RestockStatus.open_
             created_at := now, updated_at := now }]
        next_task_id := db.next_task_id + 1 } tray.id p.items)
        db.next_task_id p.items p.user_id now) db.next_task_id = [] := by
    unfold unresolvedRows
    rw [hrowsD3, List.filter_eq_nil_iff]
    intro r hr
    have hW3 := hwf.2.2.1 r hr
    simp only [decide_eq_true_eq]
    intro hc
    omega
  have h3t : (resolve_rows (apply_restock_qty
      { db with
        tasks := db.tasks ++
          [{ id := db.next_task_id, tray_id := tray.id, status := RestockStatus.open_
             created_at := now, updated_at := now }]
        next_task_id := db.next_task_id + 1 } tray.id p.items)
        db.next_task_id p.items p.user_id now).tasks
      = db.tasks ++
        [{ id := db.next_task_id, tray_id := tray.id, status := RestockStatus.open_
           created_at := now, updated_at := now }] := hat
  have hopen3 : openTaskFor (resolve_rows (apply_restock_qty
      { db with
        tasks := db.tasks ++
          [{ id := db.next_task_id, tray_id := tray.id, status := RestockStatus.open_
             created_at := now, updated_at := now }]
        next_task_id := db.next_task_id + 1 } tray.id p.items)
        db.next_task_id p.items p.user_id now) tray.id
      = some { id := db.next_task_id, tray_id := tray.id, status := RestockStatus.open_
               created_at := now, updated_at := now } := by
    unfold openTaskFor at hnone ⊢
    rw [h3t, List.find?_append, hnone]
    simp
  have hfind3 : findTask (resolve_rows (apply_restock_qty
      { db with
        tasks := db.tasks ++
          [{ id := db.next_task_id, tray_id := tray.id, status := RestockStatus.open_
             created_at := now, updated_at := now }]
        next_task_id := db.next_task_id + 1 } tray.id p.items)
        db.next_task_id p.items p.user_id now) db.next_task_id
      = some { id := db.next_task_id, tray_id := tray.id, status := RestockStatus.open_
               created_at := now, updated_at := now } := by
    unfold findTask
    rw [h3t]
    exact @findTask_append_fresh db hwf.1
      { id := db.next_task_id, tray_id := tray.id, status := RestockStatus.open_
        created_at := now, updated_at := now } rfl
  have hft3 : findTray (resolve_rows (apply_restock_qty
      { db with
        tasks := db.tasks ++
          [{ id := db.next_task_id, tray_id := tray.id, status := RestockStatus.open_
             created_at := now, updated_at := now }]
        next_task_id := db.next_task_id + 1 } tray.id p.items)
        db.next_task_id p.items p.user_id now) tray.id = some tray := by
    have h3y : (resolve_rows (apply_restock_qty
        { db with
          tasks := db.tasks ++
            [{ id := db.next_task_id, tray_id := tray.id, status := RestockStatus.open_
               created_at := now, updated_at := now }]
          next_task_id := db.next_task_id + 1 } tray.id p.items)
          db.next_task_id p.items p.user_id now).trays = db.trays := hay
    rw [findTray_congr h3y]
    rw [hid]
    exact hft
  have hspec := finish_partial_spec _ tray
    { id := db.next_task_id, tray_id := tray.id, status := RestockStatus.open_
      created_at := now, updated_at := now } NewPriority.partialKw now hopen3 hfind3 hft3
  unfold RestockPartialPost at hspec
  obtain ⟨tr', hfindtr, hneq, heq, hprt, hnum⟩ := hspec
  have hfrows : ( finish_partial (resolve_rows (apply_restock_qty
      { db with
        tasks := db.tasks ++
          [{ id := db.next_task_id, tray_id := tray.id, status := RestockStatus.open_
             created_at := now, updated_at := now }]
        next_task_id := db.next_task_id + 1 } tray.id p.items)
        db.next_task_id p.items p.user_id now) tray db.next_task_id
        NewPriority.partialKw now).task_items = db.task_items := by
    rw [ finish_partial_rows]
    exact hrowsD3
  have hfinrem : unresolvedRows ( finish_partial (resolve_rows (apply_restock_qty
      { db with
        tasks := db.tasks ++
          [{ id := db.next_task_id, tray_id := tray.id, status := RestockStatus.open_
             created_at := now, updated_at := now }]
        next_task_id := db.next_task_id + 1 } tray.id p.items)
        db.next_task_id p.items p.user_id now) tray db.next_task_id
        NewPriority.partialKw now) db.next_task_id = [] := by
    unfold unresolvedRows
    rw [hfrows]
    unfold unresolvedRows at hrem3
    rw [hrowsD3] at hrem3
    exact hrem3
  obtain ⟨hstat, t', hfta, hclosed⟩ := heq hfinrem
  refine ⟨rfl, hfrows, ⟨t', hfta, hclosed⟩, ?_, tr', hfindtr, hstat, (hprt rfl).1, ?_⟩
  · simp only [ finish_partial]
    rw [close_on_trays_update]
    rw [(close_spec now hopen3).1 hrem3]
    rw [openTaskFor_mk, List.find?_eq_none]
    intro x hx
    obtain ⟨t, ht, rfl⟩ := List.mem_map.mp hx
    rw [h3t] at ht
    rcases List.mem_append.mp ht with htl | htr
    · have hlt := hwf.1 t htl
      have hgne : ¬(t.id = db.next_task_id) := by omega
      have hnp := List.find?_eq_none.mp hnone t htl
      simp only [decide_eq_true_eq] at hnp
      simp [hgne, hnp]
    · have : t = { id := db.next_task_id, tray_id := tray.id, status := RestockStatus.open_
                   created_at := now, updated_at := now } := by simpa using htr
      subst this
      simp
  · have hb := (hprt rfl).2
    rw [hfinrem] at hb
    simp at hb
    exact hb


/-- Witness for `restock_partial_fresh` on the seeded two-row store
`traceT2`, which has no restock tasks at all. -/
theorem restock_partial_fresh_witness :
    (WF traceT2 ∧ findTray traceT2 1 = some trayT2rec ∧ openTaskFor traceT2 1 = none
      ∧ reqFresh.items ≠ [] ∧ reqFresh.new_priority = NewPriority.partialKw)
    ∧ (∃ db', restock_partial_op traceT2 reqFresh 11 = Except.ok (db', traceT2.next_task_id)
        ∧ RestockPartialFreshPost traceT2 1 db' traceT2.next_task_id) :=
  ⟨⟨by decide, by decide, by decide, by decide, by decide⟩,
    restock_partial_fresh traceT2 reqFresh 11 trayT2rec (by decide) (by decide) (by decide)
      (by decide) rfl⟩

/-- Counterexample to claim C9 as stated: a partial restock whose item
list references a non-existent sub-item does not abort; it commits, even
rewriting the tray's priority. -/
theorem restock_partial_ignores_unknown_item :
    findTrayItem traceT1 99 = none
    ∧ restock_partial_op traceT1 reqGhost 4 = Except.ok (traceGhostDB, 1)
    ∧ (findTray traceGhostDB 1).map (fun t => (t.priority_numeric, t.status))
        = some (some 2, TrayStatus.ready)
    ∧ traceGhostDB ≠ traceT1 :=
  ⟨by decide, rfl, by decide, by decide⟩

/-- Claim C9, amended: a missing tray aborts both operations with a
not-found error and an empty item list is rejected as invalid input (the
transaction model makes "no partial state change" intrinsic: an error
returns no new store).  An inventory check aborts when any referenced
sub-item is absent or belongs to another tray — but a partial restock
never does: with the tray present and a non-empty item list it always
succeeds, silently skipping unknown or wrong-tray item ids. -/
theorem failure_semantics (db : DB) (p : InventoryCheckRequest)
    (q : RestockPartialRequest) (now : Nat) :
    (findTray db p.tray_id = none → inventory_check db p now = Except.error ApiError.trayNotFound)
    ∧ (findTray db q.tray_id = none →
        restock_partial_op db q now = Except.error ApiError.trayNotFound)
    ∧ (∀ tray, findTray db p.tray_id = some tray → p.items = [] →
        inventory_check db p now = Except.error ApiError.emptyItems)
    ∧ (∀ tray, findTray db q.tray_id = some tray → q.items = [] →
        restock_partial_op db q now = Except.error ApiError.emptyItems)
    ∧ (∀ tray, findTray db p.tray_id = some tray →
        (∃ it ∈ p.items, ∀ i, findTrayItem db it.item_id = some i → i.tray_id ≠ tray.id) →
        ∃ e, inventory_check db p now = Except.error e)
    ∧ (∀ tray, findTray db q.tray_id = some tray → q.items ≠ [] →
        ∃ d tid, restock_partial_op db q now = Except.ok (d, tid)) := by
  refine ⟨?_, ?_, ?_, ?_, ?_, ?_⟩
  · intro h
    unfold inventory_check
    rw [h]
  · intro h
    unfold restock_partial_op
    rw [h]
  · intro tray h he
    unfold inventory_check
    rw [h]
    simp only
    rw [if_pos he]
  · intro tray h he
    unfold restock_partial_op
    rw [h]
    simp only
    rw [if_pos he]
  · intro tray h hbad
    have hne : p.items ≠ [] := by
      obtain ⟨it, hmem, _⟩ := hbad
      intro hcon
      rw [hcon] at hmem
      cases hmem
    unfold inventory_check
    rw [h]
    simp only
    rw [if_neg hne]
    cases hot : openTaskFor db tray.id with
    | some task =>
      rw [ensure_of_found now hot]
      simp only
      obtain ⟨e, he⟩ := processCheckItems_bad p.items db hbad
      rw [he]
      exact ⟨e, rfl⟩
    | none =>
      rw [ensure_of_none now hot]
      simp only
      obtain ⟨it0, hmem, hb0⟩ := hbad
      have hbad1 : ∃ it ∈ p.items, ∀ i,
          findTrayItem { db with
            tasks := db.tasks ++
              [{ id := db.next_task_id, tray_id := tray.id, status := RestockStatus.open_
                 created_at := now, updated_at := now }]
            next_task_id := db.next_task_id + 1 } it.item_id = some i → i.tray_id ≠ tray.id := by
        refine ⟨it0, hmem, ?_⟩
        intro i hi
        exact hb0 i hi
      obtain ⟨e, he⟩ := processCheckItems_bad p.items _ hbad1
      rw [he]
      exact ⟨e, rfl⟩
  · intro tray h hne
    unfold restock_partial_op
    rw [h]
    simp only
    rw [if_neg hne]
    cases hot : openTaskFor db tray.id with
    | some task =>
      rw [ensure_of_found now hot]
      simp only
      exact ⟨_, _, rfl⟩
    | none =>
      rw [ensure_of_none now hot]
      simp only
      exact ⟨_, _, rfl⟩


/-- Witness for `failure_semantics`: the totality conjunct for partial
restock applied to the ghost-item request. -/
theorem failure_semantics_witness :
    (findTray traceT1 1 = some trayT2rec ∧ reqGhost.items ≠ [])
    ∧ (∃ d tid, restock_partial_op traceT1 reqGhost 7 = Except.ok (d, tid)) :=
  ⟨⟨by decide, by decide⟩,
    (failure_semantics traceT1 reqPartialHint reqGhost 7).2.2.2.2.2 trayT2rec
      (by decide) (by decide)⟩

end TrayTrack

namespace TrayTrack

/-- Core fields untouched by one inventory-check item step. -/
theorem check_one_item_core {db db' : DB} {a b : Nat} {it : InventoryCheckItem}
    (h : check_one_item db a b it = Except.ok db') :
    db'.tasks = db.tasks ∧ db'.trays = db.trays ∧ db'.next_task_id = db.next_task_id := by
  unfold check_one_item at h
  cases hf : findTrayItem db it.item_id with
  | none => rw [hf] at h; cases h
  | some item =>
    rw [hf] at h
    simp only at h
    by_cases htr : item.tray_id ≠ a
    · rw [if_pos htr] at h; cases h
    rw [if_neg htr] at h
    rcases hq : it.qty_used with _ | u
    all_goals rw [hq] at h; simp only at h
    · cases hfind : db.task_items.find? (fun r =>
          decide (r.task_id = b ∧ r.item_id = it.item_id ∧ r.restocked = false)) with
      | none => rw [hfind] at h; rw [Except.ok.injEq] at h; subst h; exact ⟨rfl, rfl, rfl⟩
      | some e0 => rw [hfind] at h; rw [Except.ok.injEq] at h; subst h; exact ⟨rfl, rfl, rfl⟩
    · by_cases hu : u > 0
      · rw [if_pos hu] at h
        cases hfind : db.task_items.find? (fun r =>
            decide (r.task_id = b ∧ r.item_id = it.item_id ∧ r.restocked = false)) with
        | none => rw [hfind] at h; rw [Except.ok.injEq] at h; subst h; exact ⟨rfl, rfl, rfl⟩
        | some e0 => rw [hfind] at h; rw [Except.ok.injEq] at h; subst h; exact ⟨rfl, rfl, rfl⟩
      · rw [if_neg hu] at h
        cases hfind : db.task_items.find? (fun r =>
            decide (r.task_id = b ∧ r.item_id = it.item_id ∧ r.restocked = false)) with
        | none => rw [hfind] at h; rw [Except.ok.injEq] at h; subst h; exact ⟨rfl, rfl, rfl⟩
        | some e0 => rw [hfind] at h; rw [Except.ok.injEq] at h; subst h; exact ⟨rfl, rfl, rfl⟩

/-- The task-item table changes by a field-update map or a single append of
a new unresolved row for the processed task. -/
theorem check_one_item_rows {db db' : DB} {a b : Nat} {it : InventoryCheckItem}
    (h : check_one_item db a b it = Except.ok db') :
    (∃ g : RestockTaskItem → RestockTaskItem,
      (∀ r, (g r).task_id = r.task_id ∧ (g r).restocked = r.restocked ∧ (g r).id = r.id
        ∧ (g r).item_id = r.item_id)
      ∧ db'.task_items = db.task_items.map g)
    ∨ (∃ row : RestockTaskItem, row.task_id = b ∧ row.restocked = false
        ∧ db'.task_items = db.task_items ++ [row]) := by
  unfold check_one_item at h
  cases hf : findTrayItem db it.item_id with
  | none => rw [hf] at h; cases h
  | some item =>
    rw [hf] at h
    simp only at h
    by_cases htr : item.tray_id ≠ a
    · rw [if_pos htr] at h; cases h
    rw [if_neg htr] at h
    rcases hq : it.qty_used with _ | u
    all_goals rw [hq] at h; simp only at h
    · cases hfind : db.task_items.find? (fun r =>
          decide (r.task_id = b ∧ r.item_id = it.item_id ∧ r.restocked = false)) with
      | none =>
        rw [hfind] at h; rw [Except.ok.injEq] at h; subst h
        exact Or.inr ⟨_, rfl, rfl, rfl⟩
      | some e0 =>
        rw [hfind] at h; rw [Except.ok.injEq] at h; subst h
        refine Or.inl ⟨_, ?_, rfl⟩
        intro r
        by_cases hr : r.id = e0.id <;> simp [hr]
    · by_cases hu : u > 0
      · rw [if_pos hu] at h
        cases hfind : db.task_items.find? (fun r =>
            decide (r.task_id = b ∧ r.item_id = it.item_id ∧ r.restocked = false)) with
        | none =>
          rw [hfind] at h; rw [Except.ok.injEq] at h; subst h
          exact Or.inr ⟨_, rfl, rfl, rfl⟩
        | some e0 =>
          rw [hfind] at h; rw [Except.ok.injEq] at h; subst h
          refine Or.inl ⟨_, ?_, rfl⟩
          intro r
          by_cases hr : r.id = e0.id <;> simp [hr]
      · rw [if_neg hu] at h
        cases hfind : db.task_items.find? (fun r =>
            decide (r.task_id = b ∧ r.item_id = it.item_id ∧ r.restocked = false)) with
        | none =>
          rw [hfind] at h; rw [Except.ok.injEq] at h; subst h
          exact Or.inr ⟨_, rfl, rfl, rfl⟩
        | some e0 =>
          rw [hfind] at h; rw [Except.ok.injEq] at h; subst h
          refine Or.inl ⟨_, ?_, rfl⟩
          intro r
          by_cases hr : r.id = e0.id <;> simp [hr]

end TrayTrack

namespace TrayTrack

theorem check_one_item_establishes {db db' : DB} {a b : Nat} {it : InventoryCheckItem}
    (h : check_one_item db a b it = Except.ok db') : unresolvedRows db' b ≠ [] := by
  unfold check_one_item at h
  cases hf : findTrayItem db it.item_id with
  | none => rw [hf] at h; cases h
  | some item =>
    rw [hf] at h
    simp only at h
    by_cases htr : item.tray_id ≠ a
    · rw [if_pos htr] at h; cases h
    rw [if_neg htr] at h
    rcases hq : it.qty_used with _ | u
    all_goals rw [hq] at h; simp only at h
    · cases hfind : db.task_items.find? (fun r =>
          decide (r.task_id = b ∧ r.item_id = it.item_id ∧ r.restocked = false)) with
      | none =>
        rw [hfind] at h; rw [Except.ok.injEq] at h; subst h
        simp [unresolvedRows, List.filter_append]
      | some e0 =>
        rw [hfind] at h; rw [Except.ok.injEq] at h; subst h
        have hmem := List.mem_of_find?_eq_some hfind
        have hpred := List.find?_some hfind
        simp only [decide_eq_true_eq] at hpred
        apply List.ne_nil_of_mem
        refine List.mem_filter.mpr ⟨List.mem_map.mpr ⟨e0, hmem, rfl⟩, ?_⟩
        simp [hpred.1, hpred.2.2]
    · by_cases hu : u > 0
      · rw [if_pos hu] at h
        cases hfind : db.task_items.find? (fun r =>
            decide (r.task_id = b ∧ r.item_id = it.item_id ∧ r.restocked = false)) with
        | none =>
          rw [hfind] at h; rw [Except.ok.injEq] at h; subst h
          simp [unresolvedRows, List.filter_append]
        | some e0 =>
          rw [hfind] at h; rw [Except.ok.injEq] at h; subst h
          have hmem := List.mem_of_find?_eq_some hfind
          have hpred := List.find?_some hfind
          simp only [decide_eq_true_eq] at hpred
          apply List.ne_nil_of_mem
          refine List.mem_filter.mpr ⟨List.mem_map.mpr ⟨e0, hmem, rfl⟩, ?_⟩
          simp [hpred.1, hpred.2.2]
      · rw [if_neg hu] at h
        cases hfind : db.task_items.find? (fun r =>
            decide (r.task_id = b ∧ r.item_id = it.item_id ∧ r.restocked = false)) with
        | none =>
          rw [hfind] at h; rw [Except.ok.injEq] at h; subst h
          simp [unresolvedRows, List.filter_append]
        | some e0 =>
          rw [hfind] at h; rw [Except.ok.injEq] at h; subst h
          have hmem := List.mem_of_find?_eq_some hfind
          have hpred := List.find?_some hfind
          simp only [decide_eq_true_eq] at hpred
          apply List.ne_nil_of_mem
          refine List.mem_filter.mpr ⟨List.mem_map.mpr ⟨e0, hmem, rfl⟩, ?_⟩
          simp [hpred.1, hpred.2.2]

theorem check_one_item_preserves_unresolved {db db' : DB} {a b : Nat}
    {it : InventoryCheckItem} (h : check_one_item db a b it = Except.ok db') (tid : Nat) :
    unresolvedRows db tid ≠ [] → unresolvedRows db' tid ≠ [] := by
  intro hne
  rcases check_one_item_rows h with ⟨g, hg, hl⟩ | ⟨row, _, _, hl⟩
  · unfold unresolvedRows at hne ⊢
    rw [hl, filter_map_comm g _ ?hp]
    case hp =>
      intro r
      simp [(hg r).1, (hg r).2.1]
    intro hcon
    rw [List.map_eq_nil] at hcon
    exact hne hcon
  · unfold unresolvedRows at hne ⊢
    rw [hl, List.filter_append]
    intro hcon
    rw [List.append_eq_nil] at hcon
    exact hne hcon.1

theorem check_one_item_rows_bound {db db' : DB} {a b N : Nat} {it : InventoryCheckItem}
    (h : check_one_item db a b it = Except.ok db') (hb : b < N)
    (hold : ∀ r ∈ db.task_items, r.task_id < N) :
    ∀ r ∈ db'.task_items, r.task_id < N := by
  rcases check_one_item_rows h with ⟨g, hg, hl⟩ | ⟨row, hrow, _, hl⟩
  · intro r hr
    rw [hl] at hr
    obtain ⟨r0, hr0, rfl⟩ := List.mem_map.mp hr
    rw [(hg r0).1]
    exact hold r0 hr0
  · intro r hr
    rw [hl] at hr
    rcases List.mem_append.mp hr with h1 | h2
    · exact hold r h1
    · have : r = row := by simpa using h2
      subst this
      rw [hrow]
      exact hb

theorem processCheckItems_core {a b : Nat} :
    ∀ (l : List InventoryCheckItem) (db db' : DB),
    processCheckItems db a b l = Except.ok db' →
    db'.tasks = db.tasks ∧ db'.trays = db.trays ∧ db'.next_task_id = db.next_task_id := by
  intro l
  induction l with
  | nil =>
    intro db db' h
    unfold processCheckItems at h
    rw [Except.ok.injEq] at h
    subst h
    exact ⟨rfl, rfl, rfl⟩
  | cons it rest ih =>
    intro db db' h
    unfold processCheckItems at h
    cases hco : check_one_item db a b it with
    | error e => rw [hco] at h; cases h
    | ok db1 =>
      rw [hco] at h
      obtain ⟨h1, h2, h3⟩ := ih db1 db' h
      obtain ⟨g1, g2, g3⟩ := check_one_item_core hco
      exact ⟨h1.trans g1, h2.trans g2, h3.trans g3⟩

theorem processCheckItems_preserves_unresolved {a b : Nat} :
    ∀ (l : List InventoryCheckItem) (db db' : DB),
    processCheckItems db a b l = Except.ok db' →
    ∀ tid, unresolvedRows db tid ≠ [] → unresolvedRows db' tid ≠ [] := by
  intro l
  induction l with
  | nil =>
    intro db db' h tid hne
    unfold processCheckItems at h
    rw [Except.ok.injEq] at h
    subst h
    exact hne
  | cons it rest ih =>
    intro db db' h tid hne
    unfold processCheckItems at h
    cases hco : check_one_item db a b it with
    | error e => rw [hco] at h; cases h
    | ok db1 =>
      rw [hco] at h
      exact ih db1 db' h tid (check_one_item_preserves_unresolved hco tid hne)

theorem processCheckItems_establishes {a b : Nat} :
    ∀ (l : List InventoryCheckItem) (db db' : DB), l ≠ [] →
    processCheckItems db a b l = Except.ok db' → unresolvedRows db' b ≠ [] := by
  intro l
  cases l with
  | nil => intro db db' hne; exact absurd rfl hne
  | cons it rest =>
    intro db db' _ h
    unfold processCheckItems at h
    cases hco : check_one_item db a b it with
    | error e => rw [hco] at h; cases h
    | ok db1 =>
      rw [hco] at h
      exact processCheckItems_preserves_unresolved rest db1 db' h b
        (check_one_item_establishes hco)

theorem processCheckItems_rows_bound {a b N : Nat} (hb : b < N) :
    ∀ (l : List InventoryCheckItem) (db db' : DB),
    processCheckItems db a b l = Except.ok db' →
    (∀ r ∈ db.task_items, r.task_id < N) → ∀ r ∈ db'.task_items, r.task_id < N := by
  intro l
  induction l with
  | nil =>
    intro db db' h hold
    unfold processCheckItems at h
    rw [Except.ok.injEq] at h
    subst h
    exact hold
  | cons it rest ih =>
    intro db db' h hold
    unfold processCheckItems at h
    cases hco : check_one_item db a b it with
    | error e => rw [hco] at h; cases h
    | ok db1 =>
      rw [hco] at h
      exact ih db1 db' h (check_one_item_rows_bound hco hb hold)

end TrayTrack

namespace TrayTrack

theorem check_one_item_nonneg {db db' : DB} {a b : Nat} {it : InventoryCheckItem}
    (h : check_one_item db a b it = Except.ok db') (hnn : NNItems db) : NNItems db' := by
  unfold check_one_item at h
  cases hf : findTrayItem db it.item_id with
  | none => rw [hf] at h; cases h
  | some item =>
    rw [hf] at h
    simp only at h
    by_cases htr : item.tray_id ≠ a
    · rw [if_pos htr] at h; cases h
    rw [if_neg htr] at h
    have hkeep : NNItems { db with tray_items := db.tray_items.map (fun j =>
        if j.id = item.id then { j with qty_on_hand := some (max 0 (j.qty_on_hand.getD 0 -
          (it.qty_used.getD 0))) } else j) } := by
      intro i hi
      obtain ⟨j, hj, rfl⟩ := List.mem_map.mp hi
      by_cases hjj : j.id = item.id <;> simp only [hjj, if_true, if_false]
      · refine ⟨?_, (hnn j hj).2⟩
        intro v hv
        simp only [Option.mem_def, Option.some.injEq] at hv
        subst hv
        exact le_max_left 0 _
      · exact hnn j hj
    rcases hq : it.qty_used with _ | u
    all_goals rw [hq] at h; simp only at h
    · cases hfind : db.task_items.find? (fun r =>
          decide (r.task_id = b ∧ r.item_id = it.item_id ∧ r.restocked = false)) with
      | none => rw [hfind] at h; rw [Except.ok.injEq] at h; subst h; exact hnn
      | some e0 => rw [hfind] at h; rw [Except.ok.injEq] at h; subst h; exact hnn
    · by_cases hu : u > 0
      · rw [if_pos hu] at h
        have hkeep2 : NNItems { db with tray_items := db.tray_items.map (fun j =>
            if j.id = item.id then { j with qty_on_hand := some (max 0 (j.qty_on_hand.getD 0 - u)) }
            else j) } := by
          intro i hi
          obtain ⟨j, hj, rfl⟩ := List.mem_map.mp hi
          by_cases hjj : j.id = item.id <;> simp only [hjj, if_true, if_false]
          · refine ⟨?_, (hnn j hj).2⟩
            intro v hv
            simp only [Option.mem_def, Option.some.injEq] at hv
            subst hv
            exact le_max_left 0 _
          · exact hnn j hj
        cases hfind : db.task_items.find? (fun r =>
            decide (r.task_id = b ∧ r.item_id = it.item_id ∧ r.restocked = false)) with
        | none => rw [hfind] at h; rw [Except.ok.injEq] at h; subst h; exact hkeep2
        | some e0 => rw [hfind] at h; rw [Except.ok.injEq] at h; subst h; exact hkeep2
      · rw [if_neg hu] at h
        cases hfind : db.task_items.find? (fun r =>
            decide (r.task_id = b ∧ r.item_id = it.item_id ∧ r.restocked = false)) with
        | none => rw [hfind] at h; rw [Except.ok.injEq] at h; subst h; exact hnn
        | some e0 => rw [hfind] at h; rw [Except.ok.injEq] at h; subst h; exact hnn

theorem processCheckItems_nonneg {a b : Nat} :
    ∀ (l : List InventoryCheckItem) (db db' : DB),
    processCheckItems db a b l = Except.ok db' → NNItems db → NNItems db' := by
  intro l
  induction l with
  | nil =>
    intro db db' h hnn
    unfold processCheckItems at h
    rw [Except.ok.injEq] at h
    subst h
    exact hnn
  | cons it rest ih =>
    intro db db' h hnn
    unfold processCheckItems at h
    cases hco : check_one_item db a b it with
    | error e => rw [hco] at h; cases h
    | ok db1 =>
      rw [hco] at h
      exact ih db1 db' h (check_one_item_nonneg hco hnn)

theorem apply_restock_qty_nonneg (tid : Nat) :
    ∀ (l : List RestockPartialItem) (db : DB),
    (∀ ip ∈ l, ∀ r ∈ ip.qty_restocked, 0 ≤ r) → NNItems db →
    NNItems (apply_restock_qty db tid l) := by
  intro l
  induction l with
  | nil => intro db _ hnn; exact hnn
  | cons ip rest ih =>
    intro db hv hnn
    unfold apply_restock_qty
    have hvr : ∀ ip2 ∈ rest, ∀ r ∈ ip2.qty_restocked, 0 ≤ r :=
      fun ip2 h2 => hv ip2 (List.mem_cons_of_mem _ h2)
    apply ih _ hvr
    rcases hf : findTrayItem db ip.item_id with _ | item <;> simp only [hf]
    · exact hnn
    by_cases h1 : item.tray_id = tid <;> simp only [h1, if_true, if_false]
    swap
    · exact hnn
    rcases hq : ip.qty_restocked with _ | q <;> simp only [hq]
    · exact hnn
    by_cases h2 : q > 0 <;> simp only [h2, if_true, if_false]
    swap
    · exact hnn
    have hq0 : 0 ≤ q := hv ip (List.mem_cons_self _ _) q (by rw [hq]; rfl)
    intro i hi
    obtain ⟨j, hj, rfl⟩ := List.mem_map.mp hi
    by_cases hjj : j.id = item.id <;> simp only [hjj, if_true, if_false]
    · obtain ⟨hjo, hje⟩ := hnn j hj
      have hj0 : 0 ≤ j.qty_on_hand.getD 0 := by
        rcases hoh : j.qty_on_hand with _ | v
        · simp
        · simpa using hjo v (by rw [hoh]; rfl)
      refine ⟨?_, hje⟩
      intro v hv2
      rcases hje2 : j.qty_expected with _ | e2
      all_goals rw [hje2] at hv2; simp only [Option.mem_def, Option.some.injEq] at hv2; subst hv2
      · positivity
      · have he2 : 0 ≤ e2 := hje e2 (by rw [hje2]; rfl)
        exact le_min (by positivity) he2 |>.trans (min_le_min (le_refl _) (le_refl _)) |>.trans (le_refl _)
    · exact hnn j hj

end TrayTrack

namespace TrayTrack

theorem resolve_rows_other {db : DB} {taskId : Nat} {items : List RestockPartialItem}
    {u : String} {now : Nat} {tid : Nat} (hne : tid ≠ taskId) :
    unresolvedRows (resolve_rows db taskId items u now) tid = unresolvedRows db tid := by
  unfold unresolvedRows resolve_rows
  simp only
  rw [filter_map_comm _ _ ?hp]
  case hp =>
    intro r
    by_cases hg : r.task_id = taskId ∧ r.restocked = false
    · rcases hsel : lastPayloadFor items r.item_id with _ | sel <;>
        simp [hg, hsel, hg.1, hne, Ne.symm hne]
      rcases sel.qty_restocked with _ | q <;> simp [hg.1, hne, Ne.symm hne]
    · simp [hg]
  apply map_id_of_mem
  intro r hr
  have hpr := (List.mem_filter.mp hr).2
  simp only [decide_eq_true_eq] at hpr
  have hg : ¬(r.task_id = taskId ∧ r.restocked = false) := by
    intro hc
    exact hne (hpr.1 ▸ hc.1.symm ▸ rfl)
  simp [hg]

theorem resolve_rows_bound {db : DB} {taskId : Nat} {items : List RestockPartialItem}
    {u : String} {now N : Nat} (hold : ∀ r ∈ db.task_items, r.task_id < N) :
    ∀ r ∈ (resolve_rows db taskId items u now).task_items, r.task_id < N := by
  unfold resolve_rows
  intro r hr
  obtain ⟨r0, hr0, rfl⟩ := List.mem_map.mp hr
  have h0 := hold r0 hr0
  by_cases hg : r0.task_id = taskId ∧ r0.restocked = false
  · have heq : r0.task_id = taskId := hg.1
    rcases hsel : lastPayloadFor items r0.item_id with _ | sel
    · simp only [hg, hsel, if_true, and_self]
      simp [heq] at h0 ⊢
      omega
    · rcases hq : sel.qty_restocked with _ | q <;>
        simp only [hg, hsel, hq, if_true, and_self] <;> simp <;> omega
  · simp [hg]
    exact h0

theorem close_items (db : DB) (tid now : Nat) :
    (close_restock_task_if_empty db tid now).tray_items = db.tray_items := by
  unfold close_restock_task_if_empty
  cases h : openTaskFor db tid with
  | none => rfl
  | some task =>
    by_cases hrem : unresolvedRows db task.id = [] <;> simp [hrem]

theorem finish_partial_items (db3 : DB) (tray : Tray) (taskId : Nat)
    (np : NewPriority) (now : Nat) :
    ( finish_partial db3 tray taskId np now).tray_items = db3.tray_items := by
  simp only [ finish_partial]
  rw [close_on_trays_update]
  exact close_items db3 tray.id now

theorem finish_partial_tasks (db3 : DB) (tray : Tray) (tid : Nat)
    (np : NewPriority) (now : Nat) :
    ( finish_partial db3 tray tid np now).tasks = db3.tasks
    ∨ (∃ task, openTaskFor db3 tray.id = some task ∧ unresolvedRows db3 task.id = []
        ∧ ( finish_partial db3 tray tid np now).tasks
          = db3.tasks.map (fun t => if t.id = task.id then
              { t with status := RestockStatus.closed, updated_at := now } else t)) := by
  simp only [ finish_partial]
  rw [close_on_trays_update]
  cases h : openTaskFor db3 tray.id with
  | none =>
    left
    show (close_restock_task_if_empty db3 tray.id now).tasks = db3.tasks
    unfold close_restock_task_if_empty
    rw [h]
  | some task =>
    by_cases hrem : unresolvedRows db3 task.id = []
    · right
      refine ⟨task, rfl, hrem, ?_⟩
      show (close_restock_task_if_empty db3 tray.id now).tasks = _
      rw [(close_spec now h).1 hrem]
    · left
      show (close_restock_task_if_empty db3 tray.id now).tasks = db3.tasks
      rw [(close_spec now h).2 hrem]

end TrayTrack

namespace TrayTrack

theorem wf_create_tray {db db' : DB} {name : String} (hwf : WF db)
    (h : create_tray db name = Except.ok db') : WF db' := by
  unfold create_tray at h
  by_cases hdup : db.trays.any (fun t => decide (t.name = name))
  · rw [if_pos hdup] at h
    cases h
  · rw [if_neg hdup] at h
    rw [Except.ok.injEq] at h
    subst h
    exact wf_of_core_eq rfl rfl rfl rfl hwf

theorem wf_create_item {db db' : DB} {p : CreateTrayItemIn} (hwf : WF db)
    (hv : ValidCreateItem p) (h : create_tray_item db p = Except.ok db') : WF db' := by
  unfold create_tray_item at h
  cases hft : findTray db p.tray_id with
  | none => rw [hft] at h; cases h
  | some tray =>
    rw [hft] at h
    simp only at h
    by_cases hdup : db.tray_items.any (fun i => decide (i.tray_id = p.tray_id ∧ i.sku = p.sku))
    · rw [if_pos hdup] at h
      cases h
    · rw [if_neg hdup] at h
      rw [Except.ok.injEq] at h
      subst h
      obtain ⟨h1, h2, h3, h4, h5, h6⟩ := hwf
      refine ⟨h1, h2, h3, h4, ?_, ?_⟩
      · intro t ht hopen
        exact h5 t ht hopen
      · intro i hi
        rcases List.mem_append.mp hi with hold | hnew
        · exact h6 i hold
        · have : i = { id := db.next_item_id, tray_id := p.tray_id, sku := p.sku
                       qty_expected := p.qty_expected, qty_on_hand := p.qty_on_hand } := by
            simpa using hnew
          subst this
          exact ⟨hv.2, hv.1⟩

theorem wf_dropoff {db db' : DB} {tray_id : Nat} (hwf : WF db)
    (h : log_dropoff db tray_id = Except.ok db') : WF db' := by
  unfold log_dropoff at h
  cases hft : findTray db tray_id with
  | none => rw [hft] at h; cases h
  | some tray =>
    rw [hft] at h
    simp only at h
    rw [Except.ok.injEq] at h
    subst h
    exact wf_of_core_eq rfl rfl rfl rfl hwf

end TrayTrack

namespace TrayTrack

theorem wf_restock_full {db db' : DB} {p : RestockFullRequest} {now : Nat} (hwf : WF db)
    (h : restock_full db p now = Except.ok db') : WF db' := by
  unfold restock_full at h
  cases hft : findTray db p.tray_id with
  | none => rw [hft] at h; cases h
  | some tray =>
    rw [hft] at h
    simp only at h
    rw [show (openTaskFor { db with tray_items := db.tray_items.map (fun i =>
          if i.tray_id = tray.id then
            (match i.qty_expected with
             | some e => { i with qty_on_hand := some e }
             | none => i)
          else i) } tray.id) = openTaskFor db tray.id from openTaskFor_congr rfl tray.id] at h
    obtain ⟨h1, h2, h3, h4, h5, h6⟩ := hwf
    have hW6map : NNItems { db with tray_items := db.tray_items.map (fun i =>
        if i.tray_id = tray.id then
          (match i.qty_expected with
           | some e => { i with qty_on_hand := some e }
           | none => i)
        else i) } := by
      intro i hi
      obtain ⟨j, hj, rfl⟩ := List.mem_map.mp hi
      obtain ⟨hjo, hje⟩ := h6 j hj
      by_cases hjt : j.tray_id = tray.id <;> simp only [hjt, if_true, if_false]
      · rcases hqe : j.qty_expected with _ | e <;> simp only [hqe]
        · exact ⟨hjo, fun e he => absurd he (by simp)⟩
        · have he0 := hje e hqe
          constructor <;> (intro v hv; simp only [Option.mem_def, Option.some.injEq] at hv; subst hv; exact he0)
      · exact ⟨hjo, hje⟩
    cases hot : openTaskFor db tray.id with
    | none =>
      rw [hot] at h
      simp only at h
      rw [Except.ok.injEq] at h
      subst h
      exact ⟨h1, h2, h3, h4, fun t ht hop => h5 t ht hop, hW6map⟩
    | some task =>
      rw [hot] at h
      simp only at h
      rw [Except.ok.injEq] at h
      subst h
      refine ⟨?_, ?_, ?_, ?_, ?_, hW6map⟩
      · intro t ht
        obtain ⟨t0, ht0, rfl⟩ := List.mem_map.mp ht
        by_cases he : t0.id = task.id <;> simp only [he, if_true, if_false]
        · simpa [he] using h1 t0 ht0
        · exact h1 t0 ht0
      · rw [map_key_of_preserve RestockTask.id _ ?hid]
        case hid =>
          intro t
          by_cases he : t.id = task.id <;> simp [he]
        exact h2
      · intro r hr
        obtain ⟨r0, hr0, rfl⟩ := List.mem_map.mp hr
        by_cases hg : r0.task_id = task.id ∧ r0.restocked = false <;>
          simp only [hg, if_true, if_false]
        · have := h3 r0 hr0
          simpa [hg.1] using hg.1 ▸ this
        · exact h3 r0 hr0
      · intro t1 ht1 t2 ht2 ho1 ho2 htr
        obtain ⟨u1, hu1, rfl⟩ := List.mem_map.mp ht1
        obtain ⟨u2, hu2, rfl⟩ := List.mem_map.mp ht2
        have he1 : ¬(u1.id = task.id) := by
          intro hc
          rw [if_pos hc] at ho1
          cases ho1
        have he2 : ¬(u2.id = task.id) := by
          intro hc
          rw [if_pos hc] at ho2
          cases ho2
        rw [if_neg he1] at ho1 htr ⊢
        rw [if_neg he2] at ho2 htr ⊢
        exact h4 u1 hu1 u2 hu2 ho1 ho2 htr
      · intro t ht hop
        obtain ⟨u, hu, rfl⟩ := List.mem_map.mp ht
        have heu : ¬(u.id = task.id) := by
          intro hc
          rw [if_pos hc] at hop
          cases hop
        rw [if_neg heu] at hop ⊢
        have hold := h5 u hu hop
        unfold unresolvedRows at hold ⊢
        simp only
        rw [filter_map_comm _ _ ?hpres]
        case hpres =>
          intro r
          by_cases hg : r.task_id = task.id ∧ r.restocked = false
          · rw [if_pos hg]
            have hne : ¬ r.task_id = u.id := by
              rw [hg.1]
              intro hc
              exact heu hc.symm
            simp [hne]
          · rw [if_neg hg]
        intro hcon
        rw [List.map_eq_nil] at hcon
        exact hold hcon

/-- What the get-or-create helper guarantees about its output store when the
input store is well-formed.  Clause 5 of `WF` is weakened: the returned task
may be freshly created and still have no rows. -/
theorem ensure_wf_facts {db db1 : DB} {task : RestockTask} {tid now : Nat} (hwf : WF db)
    (he : ensure_open_restock_task db tid now = (task, db1)) :
    db1.trays = db.trays ∧ db1.tray_items = db.tray_items ∧ db1.task_items = db.task_items
    ∧ (∀ t ∈ db1.tasks, t.id < db1.next_task_id)
    ∧ (db1.tasks.map RestockTask.id).Nodup
    ∧ (∀ r ∈ db1.task_items, r.task_id < db1.next_task_id)
    ∧ (∀ t1 ∈ db1.tasks, ∀ t2 ∈ db1.tasks,
         t1.status = RestockStatus.open_ → t2.status = RestockStatus.open_ →
         t1.tray_id = t2.tray_id → t1.id = t2.id)
    ∧ (∀ t ∈ db1.tasks, t.status = RestockStatus.open_ →
         t.id = task.id ∨ unresolvedRows db1 t.id ≠ [])
    ∧ task.id < db1.next_task_id := by
  obtain ⟨h1, h2, h3, h4, h5, h6⟩ := hwf
  cases hot : openTaskFor db tid with
  | some t0 =>
    rw [ensure_of_found now hot, Prod.mk.injEq] at he
    obtain ⟨rfl, rfl⟩ := he
    obtain ⟨hmem, _, _⟩ := openTaskFor_props hot
    exact ⟨rfl, rfl, rfl, h1, h2, h3, h4,
      fun t ht hop => Or.inr (h5 t ht hop), h1 _ hmem⟩
  | none =>
    rw [ensure_of_none now hot, Prod.mk.injEq] at he
    obtain ⟨rfl, rfl⟩ := he
    have hout := (openTaskFor_eq_none_iff).mp hot
    refine ⟨rfl, rfl, rfl, ?_, ?_, ?_, ?_, ?_, ?_⟩
    · intro t ht
      rcases List.mem_append.mp ht with hold | hnew
      · exact Nat.lt_succ_of_lt (h1 t hold)
      · have : t = { id := db.next_task_id, tray_id := tid, status := RestockStatus.open_
                     created_at := now, updated_at := now } := by simpa using hnew
        subst this
        exact Nat.lt_succ_self _
    · simp only [List.map_append]
      refine List.Nodup.append h2 (List.nodup_singleton _) ?_
      intro a ha hb
      obtain ⟨t, ht, rfl⟩ := List.mem_map.mp ha
      have hlt := h1 t ht
      have : t.id = db.next_task_id := by simpa using hb
      omega
    · intro r hr
      exact Nat.lt_succ_of_lt (h3 r hr)
    · intro t1 ht1 t2 ht2 ho1 ho2 htr
      rcases List.mem_append.mp ht1 with hold1 | hnew1
      · rcases List.mem_append.mp ht2 with hold2 | hnew2
        · exact h4 t1 hold1 t2 hold2 ho1 ho2 htr
        · have h2eq : t2 = { id := db.next_task_id, tray_id := tid, status := RestockStatus.open_, created_at := now, updated_at := now } := by
            simpa using hnew2
          subst h2eq
          exact absurd ⟨by simpa using htr, ho1⟩ (hout t1 hold1)
      · have h1eq : t1 = { id := db.next_task_id, tray_id := tid, status := RestockStatus.open_, created_at := now, updated_at := now } := by
          simpa using hnew1
        subst h1eq
        rcases List.mem_append.mp ht2 with hold2 | hnew2
        · exact absurd ⟨by simpa using htr.symm, ho2⟩ (hout t2 hold2)
        · have h2eq : t2 = { id := db.next_task_id, tray_id := tid, status := RestockStatus.open_, created_at := now, updated_at := now } := by
            simpa using hnew2
          subst h2eq
          rfl
    · intro t ht hop
      rcases List.mem_append.mp ht with hold | hnew
      · exact Or.inr (h5 t hold hop)
      · have : t = { id := db.next_task_id, tray_id := tid, status := RestockStatus.open_
                     created_at := now, updated_at := now } := by simpa using hnew
        subst this
        exact Or.inl rfl
    · exact Nat.lt_succ_self _

/-- `inventory_check` preserves the store invariant. -/
theorem wf_inventory_check {db db' : DB} {p : InventoryCheckRequest} {now : Nat}
    (hwf : WF db) (h : inventory_check db p now = Except.ok db') : WF db' := by
  unfold inventory_check at h
  cases hft : findTray db p.tray_id with
  | none => rw [hft] at h; cases h
  | some tray =>
    rw [hft] at h
    simp only at h
    by_cases hemp : p.items = []
    · rw [if_pos hemp] at h; cases h
    rw [if_neg hemp] at h
    obtain ⟨task, db1, he⟩ : ∃ task db1,
        ensure_open_restock_task db tray.id now = (task, db1) := ⟨_, _, rfl⟩
    rw [he] at h
    simp only at h
    cases hpc : processCheckItems db1 tray.id task.id p.items with
    | error e => rw [hpc] at h; cases h
    | ok db2 =>
      rw [hpc] at h
      simp only at h
      rw [Except.ok.injEq] at h
      subst h
      obtain ⟨_, hit1, hrw1, hW1, hW2, hW3, hW4, hW5w, htid⟩ := ensure_wf_facts hwf he
      obtain ⟨htk2, _, hnx2⟩ := processCheckItems_core p.items db1 db2 hpc
      have hrb2 : ∀ r ∈ db2.task_items, r.task_id < db1.next_task_id :=
        processCheckItems_rows_bound htid p.items db1 db2 hpc hW3
      have hnn2 : NNItems db2 := by
        refine processCheckItems_nonneg p.items db1 db2 hpc ?_
        intro i hi
        rw [hit1] at hi
        exact hwf.2.2.2.2.2 i hi
      have hun2 : ∀ t ∈ db2.tasks, t.status = RestockStatus.open_ →
          unresolvedRows db2 t.id ≠ [] := by
        intro t ht hop
        rw [htk2] at ht
        rcases hW5w t ht hop with heq | hne
        · rw [heq]
          exact processCheckItems_establishes p.items db1 db2 hemp hpc
        · exact processCheckItems_preserves_unresolved p.items db1 db2 hpc t.id hne
      refine ⟨?_, ?_, ?_, ?_, ?_, ?_⟩
      · intro t ht
        obtain ⟨u, hu, rfl⟩ := List.mem_map.mp ht
        have hid : (if u.id = task.id then { u with updated_at := now } else u).id = u.id := by
          by_cases hc : u.id = task.id <;> simp [hc]
        rw [hid]
        rw [htk2] at hu
        rw [hnx2]
        exact hW1 u hu
      · rw [map_key_of_preserve RestockTask.id _ ?hpk]
        case hpk =>
          intro t
          by_cases hc : t.id = task.id <;> simp [hc]
        rw [htk2]
        exact hW2
      · intro r hr
        rw [hnx2]
        exact hrb2 r hr
      · intro t1 ht1 t2 ht2 ho1 ho2 htr
        obtain ⟨u1, hu1, rfl⟩ := List.mem_map.mp ht1
        obtain ⟨u2, hu2, rfl⟩ := List.mem_map.mp ht2
        rw [htk2] at hu1 hu2
        have hid1 : (if u1.id = task.id then { u1 with updated_at := now } else u1).id
            = u1.id := by by_cases hc : u1.id = task.id <;> simp [hc]
        have hid2 : (if u2.id = task.id then { u2 with updated_at := now } else u2).id
            = u2.id := by by_cases hc : u2.id = task.id <;> simp [hc]
        have hst1 : (if u1.id = task.id then { u1 with updated_at := now } else u1).status
            = u1.status := by by_cases hc : u1.id = task.id <;> simp [hc]
        have hst2 : (if u2.id = task.id then { u2 with updated_at := now } else u2).status
            = u2.status := by by_cases hc : u2.id = task.id <;> simp [hc]
        have hty1 : (if u1.id = task.id then { u1 with updated_at := now } else u1).tray_id
            = u1.tray_id := by by_cases hc : u1.id = task.id <;> simp [hc]
        have hty2 : (if u2.id = task.id then { u2 with updated_at := now } else u2).tray_id
            = u2.tray_id := by by_cases hc : u2.id = task.id <;> simp [hc]
        rw [hst1] at ho1
        rw [hst2] at ho2
        rw [hty1, hty2] at htr
        rw [hid1, hid2]
        exact hW4 u1 hu1 u2 hu2 ho1 ho2 htr
      · intro t ht hop
        obtain ⟨u, hu, rfl⟩ := List.mem_map.mp ht
        rw [htk2] at hu
        have hid : (if u.id = task.id then { u with updated_at := now } else u).id = u.id := by
          by_cases hc : u.id = task.id <;> simp [hc]
        have hst : (if u.id = task.id then { u with updated_at := now } else u).status
            = u.status := by
          by_cases hc : u.id = task.id <;> simp [hc]
        rw [hst] at hop
        rw [hid]
        rw [← htk2] at hu
        have hun := hun2 u hu hop
        unfold unresolvedRows at hun ⊢
        exact hun
      · intro i hi
        exact hnn2 i hi
/-- Closing the tray's empty open task preserves every invariant clause,
assuming clause 5 may fail only at that task. -/
theorem wf_close_weak {db : DB} {trayId : Nat} {task : RestockTask} (now : Nat)
    (hopen : openTaskFor db trayId = some task)
    (hW1 : ∀ t ∈ db.tasks, t.id < db.next_task_id)
    (hW2 : (db.tasks.map RestockTask.id).Nodup)
    (hW3 : ∀ r ∈ db.task_items, r.task_id < db.next_task_id)
    (hW4 : ∀ t1 ∈ db.tasks, ∀ t2 ∈ db.tasks,
        t1.status = RestockStatus.open_ → t2.status = RestockStatus.open_ →
        t1.tray_id = t2.tray_id → t1.id = t2.id)
    (hW5w : ∀ t ∈ db.tasks, t.status = RestockStatus.open_ →
        t.id = task.id ∨ unresolvedRows db t.id ≠ [])
    (hW6 : NNItems db) :
    WF (close_restock_task_if_empty db trayId now) := by
  by_cases hrem : unresolvedRows db task.id = []
  · rw [(close_spec now hopen).1 hrem]
    refine ⟨?_, ?_, ?_, ?_, ?_, hW6⟩
    · intro t ht
      obtain ⟨u, hu, rfl⟩ := List.mem_map.mp ht
      have hid : (if u.id = task.id then
          { u with status := RestockStatus.closed, updated_at := now } else u).id = u.id := by
        by_cases hc : u.id = task.id <;> simp [hc]
      rw [hid]
      exact hW1 u hu
    · rw [map_key_of_preserve RestockTask.id _ ?hpk]
      case hpk =>
        intro t
        by_cases hc : t.id = task.id <;> simp [hc]
      exact hW2
    · intro r hr
      exact hW3 r hr
    · intro t1 ht1 t2 ht2 ho1 ho2 htr
      obtain ⟨u1, hu1, rfl⟩ := List.mem_map.mp ht1
      obtain ⟨u2, hu2, rfl⟩ := List.mem_map.mp ht2
      have he1 : ¬(u1.id = task.id) := by
        intro hc
        rw [if_pos hc] at ho1
        cases ho1
      have he2 : ¬(u2.id = task.id) := by
        intro hc
        rw [if_pos hc] at ho2
        cases ho2
      rw [if_neg he1] at ho1 htr ⊢
      rw [if_neg he2] at ho2 htr ⊢
      exact hW4 u1 hu1 u2 hu2 ho1 ho2 htr
    · intro t ht hop
      obtain ⟨u, hu, rfl⟩ := List.mem_map.mp ht
      have heu : ¬(u.id = task.id) := by
        intro hc
        rw [if_pos hc] at hop
        cases hop
      rw [if_neg heu] at hop ⊢
      rcases hW5w u hu hop with heq | hne
      · exact absurd heq heu
      · unfold unresolvedRows at hne ⊢
        exact hne
  · rw [(close_spec now hopen).2 hrem]
    refine ⟨hW1, hW2, hW3, hW4, ?_, hW6⟩
    intro t ht hop
    rcases hW5w t ht hop with heq | hne
    · rw [heq]
      exact hrem
    · exact hne

/-- The tail of `restock_partial` preserves every invariant clause, from
the weakened clause 5. -/
theorem wf_finish_partial {db3 : DB} {tray : Tray} {task : RestockTask}
    {np : NewPriority} {now : Nat}
    (hopen : openTaskFor db3 tray.id = some task)
    (hW1 : ∀ t ∈ db3.tasks, t.id < db3.next_task_id)
    (hW2 : (db3.tasks.map RestockTask.id).Nodup)
    (hW3 : ∀ r ∈ db3.task_items, r.task_id < db3.next_task_id)
    (hW4 : ∀ t1 ∈ db3.tasks, ∀ t2 ∈ db3.tasks,
        t1.status = RestockStatus.open_ → t2.status = RestockStatus.open_ →
        t1.tray_id = t2.tray_id → t1.id = t2.id)
    (hW5w : ∀ t ∈ db3.tasks, t.status = RestockStatus.open_ →
        t.id = task.id ∨ unresolvedRows db3 t.id ≠ [])
    (hW6 : NNItems db3) :
    WF ( finish_partial db3 tray task.id np now) := by
  simp only [ finish_partial]
  rw [close_on_trays_update]
  exact wf_of_core_eq rfl rfl rfl rfl
    (wf_close_weak now hopen hW1 hW2 hW3 hW4 hW5w hW6)

/-- `restock_partial` preserves the store invariant. -/
theorem wf_restock_partial {db db' : DB} {p : RestockPartialRequest} {now taskId : Nat}
    (hwf : WF db) (hv : ValidPartialReq p)
    (h : restock_partial_op db p now = Except.ok (db', taskId)) : WF db' := by
  unfold restock_partial_op at h
  cases hft : findTray db p.tray_id with
  | none => rw [hft] at h; cases h
  | some tray =>
    rw [hft] at h
    simp only at h
    by_cases hemp : p.items = []
    · rw [if_pos hemp] at h; cases h
    rw [if_neg hemp] at h
    obtain ⟨task, db1, he⟩ : ∃ task db1,
        ensure_open_restock_task db tray.id now = (task, db1) := ⟨_, _, rfl⟩
    rw [he] at h
    simp only at h
    rw [Except.ok.injEq, Prod.mk.injEq] at h
    obtain ⟨hdb', _⟩ := h
    subst hdb'
    obtain ⟨htr1, hit1, hrw1, hW1, hW2, hW3, hW4, hW5w, htid1⟩ := ensure_wf_facts hwf he
    have hcore := apply_restock_qty_core tray.id p.items db1
    rw [Prod.mk.injEq, Prod.mk.injEq, Prod.mk.injEq, Prod.mk.injEq] at hcore
    obtain ⟨htk2, hti2, _, hnx2, _⟩ := hcore
    have hopen1 : openTaskFor db1 tray.id = some task := by
      have hoa := ensure_open_after db tray.id now
      rw [he] at hoa
      exact hoa
    have hopen3 : openTaskFor (resolve_rows (apply_restock_qty db1 tray.id p.items)
        task.id p.items p.user_id now) tray.id = some task := by
      rw [@openTaskFor_congr (apply_restock_qty db1 tray.id p.items)
        (resolve_rows (apply_restock_qty db1 tray.id p.items)
          task.id p.items p.user_id now) rfl tray.id]
      rw [@openTaskFor_congr db1 (apply_restock_qty db1 tray.id p.items) htk2 tray.id]
      exact hopen1
    have htk3 : (resolve_rows (apply_restock_qty db1 tray.id p.items)
        task.id p.items p.user_id now).tasks = db1.tasks := htk2
    have hnx3 : (resolve_rows (apply_restock_qty db1 tray.id p.items)
        task.id p.items p.user_id now).next_task_id = db1.next_task_id := hnx2
    refine wf_finish_partial hopen3 ?_ ?_ ?_ ?_ ?_ ?_
    · intro t ht
      rw [htk3] at ht
      rw [hnx3]
      exact hW1 t ht
    · rw [htk3]
      exact hW2
    · have hb2 : ∀ r ∈ (apply_restock_qty db1 tray.id p.items).task_items,
          r.task_id < db1.next_task_id := by
        intro r hr
        rw [hti2] at hr
        exact hW3 r hr
      intro r hr
      rw [hnx3]
      exact resolve_rows_bound hb2 r hr
    · intro t1 ht1 t2 ht2 ho1 ho2 htr
      rw [htk3] at ht1 ht2
      exact hW4 t1 ht1 t2 ht2 ho1 ho2 htr
    · intro t ht hop
      rw [htk3] at ht
      by_cases hct : t.id = task.id
      · exact Or.inl hct
      refine Or.inr ?_
      rw [resolve_rows_other hct]
      have hur2 : unresolvedRows (apply_restock_qty db1 tray.id p.items) t.id
          = unresolvedRows db1 t.id := unresolvedRows_congr hti2 t.id
      rw [hur2]
      rcases hW5w t ht hop with heq | hne
      · exact absurd heq hct
      · exact hne
    · have hnn1 : NNItems db1 := by
        intro i hi
        rw [hit1] at hi
        exact hwf.2.2.2.2.2 i hi
      have hnn2 : NNItems (apply_restock_qty db1 tray.id p.items) :=
        apply_restock_qty_nonneg tray.id p.items db1 hv.1 hnn1
      intro i hi
      exact hnn2 i hi

/-- Every committed transition preserves the store invariant. -/
theorem wf_step {db db' : DB} (hwf : WF db) (hs : Step db db') : WF db' := by
  cases hs with
  | createTray name h => exact wf_create_tray hwf h
  | createItem p hv h => exact wf_create_item hwf hv h
  | dropoff tray_id h => exact wf_dropoff hwf h
  | invCheck p now hv h => exact wf_inventory_check hwf h
  | rFull p now h => exact wf_restock_full hwf h
  | rPartial p now taskId hv h => exact wf_restock_partial hwf hv h

/-- The empty store is well-formed. -/
theorem wf_init : WF DB.init := by decide

/-- Every reachable store is well-formed. -/
theorem reachable_wf {db : DB} (h : Reachable db) : WF db := by
  induction h with
  | init => exact wf_init
  | step hr hs ih => exact wf_step ih hs

/-- A filter whose elements agree pairwise on an injective key retains at
most one element. -/
theorem length_filter_le_one {α : Type} (key : α → Nat) {l : List α} {p : α → Bool}
    (hnd : (l.map key).Nodup)
    (hinj : ∀ a ∈ l, ∀ b ∈ l, p a = true → p b = true → key a = key b) :
    (l.filter p).length ≤ 1 := by
  induction l with
  | nil => simp
  | cons a l ih =>
    simp only [List.map_cons, List.nodup_cons] at hnd
    by_cases hpa : p a = true
    · rw [List.filter_cons_of_pos hpa]
      have hnil : l.filter p = [] := by
        rw [List.filter_eq_nil_iff]
        intro b hb hpb
        have hk : key a = key b :=
          hinj a (List.mem_cons_self _ _) b (List.mem_cons_of_mem _ hb) hpa hpb
        exact hnd.1 (hk ▸ List.mem_map.mpr ⟨b, hb, rfl⟩)
      rw [hnil]
      simp
    · rw [List.filter_cons_of_neg hpa]
      exact ih hnd.2 (fun x hx y hy =>
        hinj x (List.mem_cons_of_mem _ hx) y (List.mem_cons_of_mem _ hy))

/-- The task table after the get-or-create helper: unchanged, or extended
by the returned fresh task carrying the next task id. -/
theorem ensure_tasks_shape {db db1 : DB} {task : RestockTask} {tid now : Nat}
    (he : ensure_open_restock_task db tid now = (task, db1)) :
    db1.tasks = db.tasks ∨ (db1.tasks = db.tasks ++ [task] ∧ task.id = db.next_task_id) := by
  unfold ensure_open_restock_task at he
  cases hot : openTaskFor db tid with
  | some t0 =>
    rw [hot] at he
    rw [Prod.mk.injEq] at he
    obtain ⟨rfl, rfl⟩ := he
    exact Or.inl rfl
  | none =>
    rw [hot] at he
    simp only at he
    rw [Prod.mk.injEq] at he
    obtain ⟨htask, hdb⟩ := he
    subst hdb
    exact Or.inr ⟨by rw [htask], by rw [← htask]⟩

/-- How one committed transition rewrites the task table: every task of the
old store survives with its id intact (possibly after an open restock task
was appended), a closed task stays closed, and a task that goes from open
to closed has no unresolved rows in the new store. -/
theorem step_tasks_shape {db db' : DB} (hwf : WF db) (hs : Step db db') :
    ∃ (g : RestockTask → RestockTask) (ext : List RestockTask),
      db'.tasks = (db.tasks ++ ext).map g
      ∧ (∀ u, (g u).id = u.id)
      ∧ (∀ u, u.status = RestockStatus.closed → (g u).status = RestockStatus.closed)
      ∧ (∀ u, u.status = RestockStatus.open_ → (g u).status = RestockStatus.closed →
          unresolvedRows db' u.id = [])
      ∧ (∀ e ∈ ext, db.next_task_id ≤ e.id) := by
  have hid_case : db'.tasks = db.tasks →
      ∃ (g : RestockTask → RestockTask) (ext : List RestockTask),
        db'.tasks = (db.tasks ++ ext).map g
        ∧ (∀ u, (g u).id = u.id)
        ∧ (∀ u, u.status = RestockStatus.closed → (g u).status = RestockStatus.closed)
        ∧ (∀ u, u.status = RestockStatus.open_ → (g u).status = RestockStatus.closed →
            unresolvedRows db' u.id = [])
        ∧ (∀ e ∈ ext, db.next_task_id ≤ e.id) := by
    intro hx
    refine ⟨fun t => t, [], by simp [hx], fun u => rfl, fun u hc => hc, ?_, by simp⟩
    intro u ho hc
    exact nomatch ho.symm.trans hc
  cases hs with
  | createTray name h =>
    apply hid_case
    unfold create_tray at h
    by_cases hdup : db.trays.any (fun t => decide (t.name = name))
    · rw [if_pos hdup] at h
      cases h
    · rw [if_neg hdup] at h
      rw [Except.ok.injEq] at h
      subst h
      rfl
  | createItem p hv h =>
    apply hid_case
    unfold create_tray_item at h
    cases hft : findTray db p.tray_id with
    | none => rw [hft] at h; cases h
    | some tray =>
      rw [hft] at h
      simp only at h
      by_cases hdup : db.tray_items.any (fun i => decide (i.tray_id = p.tray_id ∧ i.sku = p.sku))
      · rw [if_pos hdup] at h
        cases h
      · rw [if_neg hdup] at h
        rw [Except.ok.injEq] at h
        subst h
        rfl
  | dropoff tray_id h =>
    apply hid_case
    unfold log_dropoff at h
    cases hft : findTray db tray_id with
    | none => rw [hft] at h; cases h
    | some tray =>
      rw [hft] at h
      simp only at h
      rw [Except.ok.injEq] at h
      subst h
      rfl
  | invCheck p now hv h =>
    unfold inventory_check at h
    cases hft : findTray db p.tray_id with
    | none => rw [hft] at h; cases h
    | some tray =>
      rw [hft] at h
      simp only at h
      by_cases hemp : p.items = []
      · rw [if_pos hemp] at h; cases h
      rw [if_neg hemp] at h
      obtain ⟨task, db1, he⟩ : ∃ task db1,
          ensure_open_restock_task db tray.id now = (task, db1) := ⟨_, _, rfl⟩
      rw [he] at h
      simp only at h
      cases hpc : processCheckItems db1 tray.id task.id p.items with
      | error e => rw [hpc] at h; cases h
      | ok db2 =>
        rw [hpc] at h
        simp only at h
        rw [Except.ok.injEq] at h
        subst h
        obtain ⟨htk2, _, _⟩ := processCheckItems_core p.items db1 db2 hpc
        obtain ⟨ext, hext, hbound⟩ : ∃ ext, db1.tasks = db.tasks ++ ext
            ∧ ∀ e ∈ ext, db.next_task_id ≤ e.id := by
          rcases ensure_tasks_shape he with heq | ⟨heq, hid⟩
          · exact ⟨[], by simp [heq], by simp⟩
          · exact ⟨[task], heq, by
              intro e hee
              have : e = task := by simpa using hee
              subst this
              rw [hid]⟩
        refine ⟨fun t => if t.id = task.id then { t with updated_at := now } else t,
          ext, ?_, ?_, ?_, ?_, hbound⟩
        · rw [show db2.tasks = db.tasks ++ ext from htk2.trans hext]
        · intro u
          by_cases hc : u.id = task.id <;> simp [hc]
        · intro u hc
          by_cases he2 : u.id = task.id <;> simp [he2, hc]
        · intro u ho hc
          by_cases he2 : u.id = task.id <;> simp only [he2, if_true, if_false] at hc
          · exact nomatch ho.symm.trans hc
          · exact nomatch ho.symm.trans hc
  | rFull p now h =>
    unfold restock_full at h
    cases hft : findTray db p.tray_id with
    | none => rw [hft] at h; cases h
    | some tray =>
      rw [hft] at h
      simp only at h
      rw [show (openTaskFor { db with tray_items := db.tray_items.map (fun i =>
            if i.tray_id = tray.id then
              (match i.qty_expected with
               | some e => { i with qty_on_hand := some e }
               | none => i)
            else i) } tray.id) = openTaskFor db tray.id from openTaskFor_congr rfl tray.id] at h
      cases hot : openTaskFor db tray.id with
      | none =>
        rw [hot] at h
        simp only at h
        rw [Except.ok.injEq] at h
        subst h
        exact hid_case rfl
      | some task =>
        rw [hot] at h
        simp only at h
        rw [Except.ok.injEq] at h
        subst h
        refine ⟨fun t => if t.id = task.id then
            { t with status := RestockStatus.closed, updated_at := now } else t,
          [], by rw [List.append_nil], ?_, ?_, ?_, by simp⟩
        · intro u
          by_cases hc : u.id = task.id <;> simp [hc]
        · intro u hc
          by_cases he2 : u.id = task.id <;> simp [he2, hc]
        · intro u ho hc
          by_cases he2 : u.id = task.id <;> simp only [he2, if_true, if_false] at hc
          swap
          · exact nomatch ho.symm.trans hc
          rw [he2]
          unfold unresolvedRows
          rw [List.filter_eq_nil_iff]
          intro r hr
          obtain ⟨r0, hr0, rfl⟩ := List.mem_map.mp hr
          by_cases hg : r0.task_id = task.id ∧ r0.restocked = false
          · rw [if_pos hg]
            simp
          · rw [if_neg hg]
            simp only [decide_eq_true_eq]
            exact hg
  | rPartial p now taskId hv h =>
    unfold restock_partial_op at h
    cases hft : findTray db p.tray_id with
    | none => rw [hft] at h; cases h
    | some tray =>
      rw [hft] at h
      simp only at h
      by_cases hemp : p.items = []
      · rw [if_pos hemp] at h; cases h
      rw [if_neg hemp] at h
      obtain ⟨task, db1, he⟩ : ∃ task db1,
          ensure_open_restock_task db tray.id now = (task, db1) := ⟨_, _, rfl⟩
      rw [he] at h
      simp only at h
      rw [Except.ok.injEq, Prod.mk.injEq] at h
      obtain ⟨hdb', _⟩ := h
      subst hdb'
      have hcore := apply_restock_qty_core tray.id p.items db1
      rw [Prod.mk.injEq, Prod.mk.injEq, Prod.mk.injEq, Prod.mk.injEq] at hcore
      obtain ⟨htk2, _, _, _, _⟩ := hcore
      have htk3 : (resolve_rows (apply_restock_qty db1 tray.id p.items)
          task.id p.items p.user_id now).tasks = db1.tasks := htk2
      obtain ⟨ext, hext, hbound⟩ : ∃ ext, db1.tasks = db.tasks ++ ext
          ∧ ∀ e ∈ ext, db.next_task_id ≤ e.id := by
        rcases ensure_tasks_shape he with heq | ⟨heq, hid⟩
        · exact ⟨[], by simp [heq], by simp⟩
        · exact ⟨[task], heq, by
            intro e hee
            have : e = task := by simpa using hee
            subst this
            rw [hid]⟩
      rcases finish_partial_tasks (resolve_rows (apply_restock_qty db1 tray.id p.items)
          task.id p.items p.user_id now) tray task.id p.new_priority now with
        hfin | ⟨task0, hopen0, hrem0, hfin⟩
      · refine ⟨fun t => t, ext, ?_, fun u => rfl, fun u hc => hc, ?_, hbound⟩
        · rw [hfin, htk3, hext]
          simp
        · intro u ho hc
          exact nomatch ho.symm.trans hc
      · refine ⟨fun t => if t.id = task0.id then
            { t with status := RestockStatus.closed, updated_at := now } else t,
          ext, ?_, ?_, ?_, ?_, hbound⟩
        · rw [hfin, htk3, hext]
        · intro u
          by_cases hc : u.id = task0.id <;> simp [hc]
        · intro u hc
          by_cases he2 : u.id = task0.id <;> simp [he2, hc]
        · intro u ho hc
          by_cases he2 : u.id = task0.id <;> simp only [he2, if_true, if_false] at hc
          swap
          · exact nomatch ho.symm.trans hc
          rw [he2]
          rw [unresolvedRows_congr ( finish_partial_rows (resolve_rows
            (apply_restock_qty db1 tray.id p.items) task.id p.items p.user_id now)
            tray task.id p.new_priority now) task0.id]
          exact hrem0

/-- **C4.** In every reachable store each tray has at most one open
restock task, and the get-or-create helper respects that: it returns the
existing open task with the store untouched when one exists, and appends a
single fresh open task for the tray only when none exists. -/
theorem at_most_one_open_task {db : DB} (h : Reachable db) (tid now : Nat) :
    (db.tasks.filter (fun t =>
        decide (t.tray_id = tid ∧ t.status = RestockStatus.open_))).length ≤ 1
    ∧ (∀ task, openTaskFor db tid = some task →
        ensure_open_restock_task db tid now = (task, db))
    ∧ (openTaskFor db tid = none →
        (ensure_open_restock_task db tid now).1.tray_id = tid
        ∧ (ensure_open_restock_task db tid now).1.status = RestockStatus.open_
        ∧ (ensure_open_restock_task db tid now).2.tasks
            = db.tasks ++ [(ensure_open_restock_task db tid now).1]) := by
  obtain ⟨h1, h2, h3, h4, h5, h6⟩ := reachable_wf h
  refine ⟨?_, ?_, ?_⟩
  · refine length_filter_le_one RestockTask.id h2 ?_
    intro a ha b hb hpa hpb
    simp only [decide_eq_true_eq] at hpa hpb
    exact h4 a ha b hb hpa.2 hpb.2 (hpa.1.trans hpb.1.symm)
  · intro task ho
    exact ensure_of_found now ho
  · intro ho
    rw [ensure_of_none now ho]
    exact ⟨rfl, rfl, rfl⟩

/-- Witness for C4: in the reachable store `traceT3` (tray 1 carries one
open restock task) the open-task count of tray 1 is at most one. -/
theorem at_most_one_open_task_witness :
    (traceT3.tasks.filter (fun t =>
        decide (t.tray_id = 1 ∧ t.status = RestockStatus.open_))).length ≤ 1 :=
  (at_most_one_open_task
    (Reachable.step
      (Reachable.step
        (Reachable.step Reachable.init (Step.createTray "A" rfl))
        (Step.createItem itemSeedS (by decide) rfl))
      (Step.invCheck reqPartialHint 1 (by decide) rfl))
    1 1).1

/-- **C5.** Along any committed transition out of a reachable store: a
closed task never reopens, a task that goes from open to closed ends the
transition with zero unresolved rows, and any task left with zero
unresolved rows ends the transition closed. -/
theorem task_close_iff_empty {db db' : DB} (hr : Reachable db) (hs : Step db db') :
    (∀ t ∈ db.tasks, ∀ t' ∈ db'.tasks, t'.id = t.id →
        (t.status = RestockStatus.closed → t'.status = RestockStatus.closed)
        ∧ (t.status = RestockStatus.open_ → t'.status = RestockStatus.closed →
            unresolvedRows db' t'.id = []))
    ∧ (∀ t' ∈ db'.tasks, unresolvedRows db' t'.id = [] →
        t'.status = RestockStatus.closed) := by
  have hwf := reachable_wf hr
  have hwf' := wf_step hwf hs
  obtain ⟨g, ext, heq, hgid, hgcl, hgoc, hext⟩ := step_tasks_shape hwf hs
  constructor
  · intro t ht t' ht' hid
    rw [heq] at ht'
    obtain ⟨u, hu, rfl⟩ := List.mem_map.mp ht'
    have huid : u.id = t.id := (hgid u).symm.trans hid
    rcases List.mem_append.mp hu with hold | hnew
    · have hueq : u = t := List.inj_on_of_nodup_map hwf.2.1 hold ht huid
      subst hueq
      refine ⟨hgcl u, ?_⟩
      intro hop hcl
      rw [hgid u, ← huid] at hid ⊢
      exact hgoc u hop hcl
    · have h1 := hwf.1 t ht
      have h2 := hext u hnew
      omega
  · intro t' ht' hempty
    cases hst : t'.status with
    | closed => rfl
    | open_ => exact absurd hempty (hwf'.2.2.2.2.1 t' ht' hst)

/-- Witness for C5: the full restock of `traceT3` at time 7 closes the
open task 1, and indeed no unresolved rows remain under it afterwards. -/
theorem task_close_iff_empty_witness : unresolvedRows traceFullDB 1 = [] := by
  have h := (task_close_iff_empty
    (Reachable.step
      (Reachable.step
        (Reachable.step Reachable.init (Step.createTray "A" rfl))
        (Step.createItem itemSeedS (by decide) rfl))
      (Step.invCheck reqPartialHint 1 (by decide) rfl))
    (Step.rFull reqFull 7 rfl)).1
    taskOpenT3 (by decide) taskClosedFull (by decide) rfl
  exact h.2 rfl rfl

/-- **C8** (amended): reporting a positive `qty_used u` against a sub-item
sets its on-hand count to `max 0 (on-hand - u)` and a zero or absent
`qty_used` leaves it unchanged; reporting a positive `qty_restocked r`
sets it to `min (on-hand + r) expected` when an expected quantity is
defined and to `on-hand + r` otherwise, while a zero or absent
`qty_restocked` leaves the count unchanged (in particular it is **not**
capped down to the expected quantity); and in every reachable store all
on-hand counts are non-negative. -/
theorem quantity_bookkeeping :
    (∀ (db db' : DB) (a b : Nat) (it : InventoryCheckItem) (item : TrayItem),
      check_one_item db a b it = Except.ok db' →
      findTrayItem db it.item_id = some item →
      findTrayItem db' it.item_id = some { item with qty_on_hand :=
        match it.qty_used with
        | some u => if u > 0 then some (max 0 (item.qty_on_hand.getD 0 - u))
                    else item.qty_on_hand
        | none => item.qty_on_hand })
    ∧ (∀ (db : DB) (trayId : Nat) (ip : RestockPartialItem) (item : TrayItem),
      findTrayItem db ip.item_id = some item → item.tray_id = trayId →
      findTrayItem (apply_restock_qty db trayId [ip]) ip.item_id
        = some { item with qty_on_hand :=
          match ip.qty_restocked with
          | some r => if r > 0 then
              (match item.qty_expected with
               | some e => some (min (item.qty_on_hand.getD 0 + r) e)
               | none => some (item.qty_on_hand.getD 0 + r))
            else item.qty_on_hand
          | none => item.qty_on_hand })
    ∧ (∀ db : DB, Reachable db → ∀ i ∈ db.tray_items, ∀ q ∈ i.qty_on_hand, 0 ≤ q) := by
  refine ⟨?_, ?_, ?_⟩
  · intro db db' a b it item h hfind
    unfold check_one_item at h
    rw [hfind] at h
    simp only at h
    by_cases htr : item.tray_id ≠ a
    · rw [if_pos htr] at h
      cases h
    rw [if_neg htr] at h
    rcases hq : it.qty_used with _ | u
    all_goals rw [hq] at h
    all_goals simp only at h
    · cases hfd : db.task_items.find? (fun r =>
          decide (r.task_id = b ∧ r.item_id = it.item_id ∧ r.restocked = false)) with
      | none =>
        rw [hfd] at h
        rw [Except.ok.injEq] at h
        subst h
        exact hfind.trans rfl
      | some ex =>
        rw [hfd] at h
        rw [Except.ok.injEq] at h
        subst h
        exact hfind.trans rfl
    · show findTrayItem db' it.item_id = some { item with qty_on_hand := (if u > 0 then some (max 0 (item.qty_on_hand.getD 0 - u)) else item.qty_on_hand) }
      by_cases hu : u > 0
      case neg =>
        rw [if_neg hu] at h ⊢
        cases hfd : db.task_items.find? (fun r =>
            decide (r.task_id = b ∧ r.item_id = it.item_id ∧ r.restocked = false)) with
        | none =>
          rw [hfd] at h
          rw [Except.ok.injEq] at h
          subst h
          exact hfind.trans rfl
        | some ex =>
          rw [hfd] at h
          rw [Except.ok.injEq] at h
          subst h
          exact hfind.trans rfl
      case pos =>
        rw [if_pos hu] at h ⊢
        have hres : ((db.tray_items.map (fun j =>
            if j.id = item.id then
              { j with qty_on_hand := some (max 0 (j.qty_on_hand.getD 0 - u)) }
            else j)).find? (fun i => decide (i.id = it.item_id)))
            = some (if item.id = item.id then
              { item with qty_on_hand := some (max 0 (item.qty_on_hand.getD 0 - u)) }
            else item) := by
          rw [find?_map_comm _ _ ?hp]
          case hp =>
            intro j
            by_cases hj : j.id = item.id <;> simp [hj]
          unfold findTrayItem at hfind
          rw [hfind]
          rfl
        rw [if_pos rfl] at hres
        cases hfd : db.task_items.find? (fun r =>
            decide (r.task_id = b ∧ r.item_id = it.item_id ∧ r.restocked = false)) with
        | none =>
          rw [hfd] at h
          rw [Except.ok.injEq] at h
          subst h
          exact hres
        | some ex =>
          rw [hfd] at h
          rw [Except.ok.injEq] at h
          subst h
          exact hres
  · intro db trayId ip item hfind htr
    unfold apply_restock_qty
    rw [hfind]
    simp only
    rw [if_pos htr]
    rcases hq : ip.qty_restocked with _ | r
    all_goals simp only
    · unfold apply_restock_qty
      exact hfind.trans rfl
    · show findTrayItem (apply_restock_qty (if r > 0 then
          { db with tray_items := db.tray_items.map (fun j =>
              if j.id = item.id then
                { j with qty_on_hand :=
                    match j.qty_expected with
                    | some e => some (min (j.qty_on_hand.getD 0 + r) e)
                    | none => some (j.qty_on_hand.getD 0 + r) }
              else j) }
          else db) trayId []) ip.item_id
        = some { item with qty_on_hand := (if r > 0 then (match item.qty_expected with | some e => some (min (item.qty_on_hand.getD 0 + r) e) | none => some (item.qty_on_hand.getD 0 + r)) else item.qty_on_hand) }
      by_cases hr : r > 0
      case neg =>
        rw [if_neg hr, if_neg hr]
        unfold apply_restock_qty
        exact hfind.trans rfl
      case pos =>
        rw [if_pos hr, if_pos hr]
        unfold apply_restock_qty
        have hres : ((db.tray_items.map (fun j =>
            if j.id = item.id then
              { j with qty_on_hand :=
                  match j.qty_expected with
                  | some e => some (min (j.qty_on_hand.getD 0 + r) e)
                  | none => some (j.qty_on_hand.getD 0 + r) }
            else j)).find? (fun i => decide (i.id = ip.item_id)))
            = some (if item.id = item.id then
              { item with qty_on_hand :=
                  match item.qty_expected with
                  | some e => some (min (item.qty_on_hand.getD 0 + r) e)
                  | none => some (item.qty_on_hand.getD 0 + r) }
            else item) := by
          rw [find?_map_comm _ _ ?hp2]
          case hp2 =>
            intro j
            by_cases hj : j.id = item.id <;> simp [hj]
          unfold findTrayItem at hfind
          rw [hfind]
          rfl
        rw [if_pos rfl] at hres
        exact hres
  · intro db hr i hi q hq
    exact ((reachable_wf hr).2.2.2.2.2 i hi).1 q hq

/-- Witness for C8: on the seeded store, one inventory-check iteration
reporting four used units drops item 1 from 10 to `max 0 (10 - 4) = 6`,
and a partial restock of three units caps it at `min (10 + 3) 10 = 10`. -/
theorem quantity_bookkeeping_witness :
    findTrayItem traceChkDB 1 = some { itemRecS with qty_on_hand := some 6 }
    ∧ findTrayItem (apply_restock_qty traceT2 1 [{ item_id := 1, qty_restocked := some 3 }]) 1
        = some { itemRecS with qty_on_hand := some 10 }
    ∧ (0 : Int) ≤ 10 := by
  refine ⟨?_, ?_, ?_⟩
  · have h := quantity_bookkeeping.1 traceT2 traceChkDB 1 1 chkItemS itemRecS rfl rfl
    exact h.trans (by decide)
  · have h := quantity_bookkeeping.2.1 traceT2 1
      { item_id := 1, qty_restocked := some 3 } itemRecS rfl rfl
    exact h.trans (by decide)
  · exact quantity_bookkeeping.2.2 traceT2
      (Reachable.step (Reachable.step Reachable.init (Step.createTray "A" rfl))
        (Step.createItem itemSeedS (by decide) rfl))
      itemRecS (by decide) 10 rfl

/-- Counterexample to C8 as stated: in the reachable store `traceOverDB`
item 1 has on-hand 10 and expected 5; the partial restock `reqZeroQty`
reporting `qty_restocked = 0` passes validation and commits, yet leaves
on-hand at 10 instead of the claimed `min (10 + 0) 5 = 5`. -/
theorem partial_restock_zero_not_capped :
    Reachable traceZeroDB
    ∧ ValidPartialReq reqZeroQty
    ∧ restock_partial_op traceOverDB reqZeroQty 3 = Except.ok (traceZeroDB, 1)
    ∧ (∃ i, findTrayItem traceOverDB 1 = some i
        ∧ i.qty_expected = some 5 ∧ i.qty_on_hand = some 10)
    ∧ (∃ i, findTrayItem traceZeroDB 1 = some i
        ∧ i.qty_on_hand = some 10
        ∧ i.qty_on_hand ≠ some (min (10 + 0) 5)) := by
  refine ⟨?_, by decide, rfl, ⟨_, rfl, rfl, rfl⟩, ⟨_, rfl, rfl, by decide⟩⟩
  exact Reachable.step
    (Reachable.step
      (Reachable.step Reachable.init (Step.createTray "A" rfl))
      (Step.createItem itemSeedOver (by decide) rfl))
    (Step.rPartial reqZeroQty 3 1 (by decide) rfl)

end TrayTrack
